import Mathlib

/-!
Verification development for the LLM knowledge-graph extractor
(`src/main.py`).  The Python source is shallowly embedded:

* Python strings are `String` (or `List Char` in the completion-client
  layer, where the claims are about character-level slicing);
* parsed JSON values (`json.loads` results, the dicts and lists the
  pipeline threads between stages) are the inductive type `Json`;
* fallible Python code (attribute errors, key errors, ...) is embedded
  in `Except String`;
* the remote LLM call is a parameter `gemini : String → Except String Json`
  giving, for each prompt, either the parsed JSON of a successful
  `call_gemini` or the error string of a failed one.
-/

/-- Parsed JSON values / Python objects flowing through the pipeline.
`num` keeps the numeric lexeme as written (claims never compare numbers
across distinct lexemes). -/
inductive Json where
  | null : Json
  | bool : Bool → Json
  | num : String → Json
  | str : String → Json
  | arr : List Json → Json
  | obj : List (String × Json) → Json
deriving Repr

/-- JSON insignificant whitespace (the set `json.loads` skips). -/
def isWs (c : Char) : Bool := c == ' ' || c == '\t' || c == '\n' || c == '\r'

/-- Drop leading JSON whitespace. -/
def dropWs (l : List Char) : List Char := l.dropWhile isWs

/-- Drop leading and trailing JSON whitespace (a JSON document is its
trimmed core surrounded by insignificant whitespace). -/
def trimBoth (l : List Char) : List Char :=
  (dropWs (dropWs l).reverse).reverse

/-- Characters that may occur in a JSON number token. -/
def numChar (c : Char) : Bool :=
  c.isDigit || c == '-' || c == '+' || c == '.' || c == 'e' || c == 'E'

/-- Integer part of a JSON number after the optional sign:
`0` or a nonzero digit followed by digits. -/
def intDigits : List Char → Option (List Char)
  | '0' :: r => some r
  | c :: r => if c.isDigit then some (r.dropWhile Char.isDigit) else none
  | [] => none

/-- Optional fraction part: `.` followed by at least one digit. -/
def fracDigits : List Char → Option (List Char)
  | '.' :: c :: r => if c.isDigit then some (r.dropWhile Char.isDigit) else none
  | '.' :: [] => none
  | l => some l

/-- At least one digit (after an exponent marker and optional sign). -/
def expDigits : List Char → Option (List Char)
  | c :: r => if c.isDigit then some (r.dropWhile Char.isDigit) else none
  | [] => none

/-- Optional exponent part: `e`/`E`, optional sign, digits. -/
def expTail : List Char → Option (List Char)
  | c :: r =>
    if c == 'e' || c == 'E' then
      match r with
      | s :: r2 => if s == '+' || s == '-' then expDigits r2 else expDigits (s :: r2)
      | [] => none
    else some (c :: r)
  | [] => some []

/-- Whether a token is a complete JSON number (the grammar `json.loads`
accepts: no leading zeros, no bare sign, no trailing garbage). -/
def validNum (l : List Char) : Bool :=
  let l1 := match l with | '-' :: r => r | _ => l
  match intDigits l1 with
  | none => false
  | some l2 =>
    match fracDigits l2 with
    | none => false
    | some l3 =>
      match expTail l3 with
      | none => false
      | some l4 => l4.isEmpty

/-- Scan a JSON string body (input starts right after the opening quote);
returns the content and the rest after the closing quote.  An escape
consumes the following character verbatim (enough fidelity for the
claims, which never inspect decoded escapes). -/
def parseStrAux : List Char → Option (List Char × List Char)
  | [] => none
  | '"' :: r => some ([], r)
  | '\\' :: c :: r => (parseStrAux r).map (fun p => (c :: p.1, p.2))
  | '\\' :: [] => none
  | c :: r => (parseStrAux r).map (fun p => (c :: p.1, p.2))

/-- Python-dict insertion: replace the value of an existing key in place,
otherwise append (`d[k] = v` keeps the original key position). -/
def kvInsert (k : String) (v : Json) : List (String × Json) → List (String × Json)
  | [] => [(k, v)]
  | (k2, v2) :: rest => if k2 == k then (k2, v) :: rest else (k2, v2) :: kvInsert k v rest

/-- Collapse duplicate keys the way `json.loads` builds a dict
(later duplicates overwrite, original position kept). -/
def dedupKVs (kvs : List (String × Json)) : List (String × Json) :=
  kvs.foldl (fun acc e => kvInsert e.1 e.2 acc) []

mutual

/-- Recursive-descent JSON value parser (fuel-indexed; callers supply
ample fuel).  Mirrors the grammar `json.loads` accepts; the input must
start with the value's first character (no leading whitespace). -/
def parseVal : Nat → List Char → Option (Json × List Char)
  | 0, _ => none
  | _ + 1, 'n' :: 'u' :: 'l' :: 'l' :: r => some (Json.null, r)
  | _ + 1, 't' :: 'r' :: 'u' :: 'e' :: r => some (Json.bool true, r)
  | _ + 1, 'f' :: 'a' :: 'l' :: 's' :: 'e' :: r => some (Json.bool false, r)
  | _ + 1, '"' :: r => (parseStrAux r).map (fun p => (Json.str (String.mk p.1), p.2))
  | f + 1, '[' :: r =>
    (match dropWs r with
     | ']' :: r2 => some (Json.arr [], r2)
     | r1 => (parseArrItems f r1).map (fun p => (Json.arr p.1, p.2)))
  | f + 1, '{' :: r =>
    (match dropWs r with
     | '}' :: r2 => some (Json.obj [], r2)
     | r1 => (parseObjItems f r1).map (fun p => (Json.obj (dedupKVs p.1), p.2)))
  | _ + 1, c :: r =>
    if c == '-' || c.isDigit then
      if validNum (List.takeWhile numChar (c :: r)) then
        some (Json.num (String.mk (List.takeWhile numChar (c :: r))), List.dropWhile numChar (c :: r))
      else none
    else none
  | _ + 1, [] => none

/-- Comma-separated items of a non-empty array, up to and including the
closing bracket. -/
def parseArrItems : Nat → List Char → Option (List Json × List Char)
  | 0, _ => none
  | f + 1, l =>
    match parseVal f (dropWs l) with
    | none => none
    | some (v, r) =>
      match dropWs r with
      | ',' :: r2 => (parseArrItems f r2).map (fun p => (v :: p.1, p.2))
      | ']' :: r2 => some ([v], r2)
      | _ => none

/-- Key-value pairs of a non-empty object, up to and including the
closing brace. -/
def parseObjItems : Nat → List Char → Option (List (String × Json) × List Char)
  | 0, _ => none
  | f + 1, l =>
    match dropWs l with
    | '"' :: r =>
      (match parseStrAux r with
       | none => none
       | some (k, r1) =>
         match dropWs r1 with
         | ':' :: r2 =>
           (match parseVal f (dropWs r2) with
            | none => none
            | some (v, r3) =>
              match dropWs r3 with
              | ',' :: r4 => (parseObjItems f r4).map (fun p => ((String.mk k, v) :: p.1, p.2))
              | '}' :: r4 => some ([(String.mk k, v)], r4)
              | _ => none)
         | _ => none)
    | _ => none

end

/-- Model of `json.loads`: trim the insignificant whitespace at both ends
and parse exactly the remaining text as one JSON value. -/
def jsonLoads (l : List Char) : Option Json :=
  match parseVal (2 * (trimBoth l).length + 2) (trimBoth l) with
  | some (v, []) => some v
  | _ => none

/-- Boolean prefix test on character lists (Python `str.startswith`). -/
def startsWithL (p l : List Char) : Bool :=
  match p, l with
  | [], _ => true
  | _ :: _, [] => false
  | a :: p2, b :: l2 => a == b && startsWithL p2 l2

/-- Boolean suffix test on character lists (Python `str.endswith`). -/
def endsWithL (p l : List Char) : Bool := startsWithL p.reverse l.reverse

/-- The opening fence tag the client looks for (`"```json"`, 7 chars). -/
def fenceJson : List Char := "```json".toList

/-- The closing fence (`"```"`). -/
def fenceTicks : List Char := "```".toList

/-- Lines 30–33 of `call_gemini`: if the model output starts with
"```json" drop the first 7 characters, then if the (possibly shortened)
text ends with "```" drop the last 3. -/
def stripFences (l : List Char) : List Char :=
  let l1 := if startsWithL fenceJson l then l.drop 7 else l
  if endsWithL fenceTicks l1 then l1.take (l1.length - 3) else l1

/-- The client's post-extraction processing of the first candidate's
text: fence stripping followed by `json.loads` (lines 29–35). -/
def extractPayload (l : List Char) : Option Json := jsonLoads (stripFences l)

/-- The fenced form `"```json\n" + t + "\n```"` of a payload `t`. -/
def wrapFence (t : List Char) : List Char :=
  "```json\n".toList ++ t ++ "\n```".toList

/-- The backtick character (written via its code point: it may not appear
bare in Lean source outside strings). -/
def backtick : Char := Char.ofNat 96

/- ===== Python value semantics used by the pipeline and the projector ===== -/

/-- Whether a JSON number lexeme denotes zero (all mantissa digits `0`). -/
def numIsZero (s : String) : Bool :=
  (s.toList.takeWhile (fun c => !(c == 'e') && !(c == 'E'))).all
    (fun c => !c.isDigit || c == '0')

/-- Python truthiness of a parsed JSON value (`bool(x)`). -/
def pyTruthy : Json → Bool
  | .null => false
  | .bool b => b
  | .num lex => !(numIsZero lex)
  | .str s => !(s == "")
  | .arr xs => !xs.isEmpty
  | .obj kvs => !kvs.isEmpty

/-- Whether a value may be used as a dict key / in a membership test
(Python lists and dicts are unhashable and raise `TypeError`). -/
def pyHashable : Json → Bool
  | .arr _ => false
  | .obj _ => false
  | _ => true

mutual

/-- Python `==` on parsed JSON values.  Cross-type comparisons are
`false` and containers compare structurally in order; the pipeline only
ever compares hashable scalar values (names and labels), where this
matches Python exactly (numbers are compared by lexeme, which agrees
with Python whenever the lexemes agree). -/
def jsonBEq : Json → Json → Bool
  | .null, .null => true
  | .bool a, .bool b => a == b
  | .num a, .num b => a == b
  | .str a, .str b => a == b
  | .arr a, .arr b => jsonListBEq a b
  | .obj a, .obj b => jsonKVBEq a b
  | _, _ => false

/-- Elementwise equality of JSON lists. -/
def jsonListBEq : List Json → List Json → Bool
  | [], [] => true
  | x :: xs, y :: ys => jsonBEq x y && jsonListBEq xs ys
  | _, _ => false

/-- Pairwise equality of key-value lists. -/
def jsonKVBEq : List (String × Json) → List (String × Json) → Bool
  | [], [] => true
  | (k1, v1) :: xs, (k2, v2) :: ys => k1 == k2 && jsonBEq v1 v2 && jsonKVBEq xs ys
  | _, _ => false

end

/-- Python `==` (alias used throughout the embedding). -/
def pyEq (a b : Json) : Bool := jsonBEq a b

/-- `d.get(k)` on a dict: the stored value if the key is present. -/
def pyGetOpt (n : Json) (k : String) : Option Json :=
  match n with
  | .obj kvs => (kvs.find? (fun e => e.1 == k)).map (fun e => e.2)
  | _ => none

/-- `d.get(k, default)`. -/
def pyGetD (n : Json) (k : String) (d : Json) : Json := (pyGetOpt n k).getD d

/-- `d[k] = v` on a dict (overwrite in place or append); identity on
non-dicts (callers establish dict-ness first, as the Python does). -/
def objInsert (k : String) (v : Json) : Json → Json
  | .obj kvs => .obj (kvInsert k v kvs)
  | j => j

/-- `d[k]` subscript access: `KeyError` when absent, type error on
non-dicts. -/
def subscriptE (n : Json) (k : String) : Except String Json :=
  match n with
  | .obj _ =>
    (match pyGetOpt n k with
     | some v => .ok v
     | none => .error "KeyError: name")
  | _ => .error "TypeError: not subscriptable"

/-- `str.upper()` (ASCII, which covers the category and relation labels
the pipeline handles). -/
def upperS (s : String) : String := String.mk (s.toList.map Char.toUpper)

/-- `x.upper()` on an arbitrary value: only strings have `.upper`;
anything else (including `None`) raises `AttributeError`. -/
def pyUpperE : Json → Except String String
  | .str s => .ok (upperS s)
  | _ => .error "AttributeError: upper"

/-- `x in d` for the name-to-id dict: hashes the key (raising
`TypeError` on unhashable values) then tests membership by equality. -/
def pyMemE (x : Json) (m : List (Json × Nat)) : Except String Bool :=
  if pyHashable x then .ok (m.any (fun e => pyEq x e.1)) else .error "TypeError: unhashable type"

/-- `d[x]` lookup in the name-to-id dict (callers guard with membership,
as the Python does; the default is unreachable). -/
def lookupId (m : List (Json × Nat)) (x : Json) : Nat :=
  ((m.find? (fun e => pyEq x e.1)).map (fun e => e.2)).getD 0

/-- `str(x)` as used by f-string interpolation.  Exact for strings (the
only case the pipeline reaches with well-formed data); scalars use their
Python spellings; containers are approximated by their JSON dump (Python
`repr` quotes with apostrophes instead). -/
def pyStr : Json → String
  | .null => "None"
  | .bool true => "True"
  | .bool false => "False"
  | .str s => s
  | .num lex => lex
  | .arr _ => "[...]"
  | .obj _ => "\x7b...\x7d"


/- ===== GraphProjector: format_for_st_link_analysis (lines 129-191) ===== -/

/-- Visual style of a node category (`NodeStyle(label, color, caption, icon)`). -/
structure NodeStyle where
  label : String
  color : String
  caption : String
  icon : String
deriving Repr, DecidableEq

/-- Visual style of an edge label (`EdgeStyle(label, caption, directed, color)`). -/
structure EdgeStyle where
  label : String
  caption : String
  directed : Bool
  color : String
deriving Repr, DecidableEq

/-- The fixed per-category node styles (lines 158-164). -/
def node_styles : List NodeStyle :=
  [⟨"PERSON", "#FF7F3E", "name", "person"⟩,
   ⟨"ORGANIZATION", "#2A629A", "name", "business"⟩,
   ⟨"LOCATION", "#2A629A", "name", "business"⟩,
   ⟨"EVENT", "#2A629A", "name", "business"⟩,
   ⟨"CONCEPT", "#2A629A", "name", "business"⟩]

/-- `all_edge_labels.add(x)`, modelled as an insertion-ordered
duplicate-free list (Python set iteration order is unspecified; only
the member set matters downstream). -/
def labAdd (labs : List String) (x : String) : List String :=
  if labs.contains x then labs else labs ++ [x]

/-- The node loop of `format_for_st_link_analysis` (lines 137-155):
state is the name-to-id dict and the next fresh id.  Skips falsy and
already-seen names (short-circuit order as in Python: a falsy name is
never hashed), upper-cases the label defaulting to `"ENTITY"`, and adds
a `personality` field exactly on `PERSON`-labelled nodes. -/
def fmtNodesGo : List Json → List (Json × Nat) → Nat → Except String (List Json × List (Json × Nat) × Nat)
  | [], m, c => .ok ([], m, c)
  | n :: rest, m, c =>
    match n with
    | .obj _ =>
      let nameV := pyGetD n "name" .null
      if !(pyTruthy nameV) then fmtNodesGo rest m c
      else
        match pyMemE nameV m with
        | .error e => .error e
        | .ok true => fmtNodesGo rest m c
        | .ok false =>
          match pyUpperE (pyGetD n "label" (.str "ENTITY")) with
          | .error e => .error e
          | .ok lbl =>
            let base := [("id", Json.num (toString c)), ("label", Json.str lbl), ("name", nameV)]
            let nd := if lbl == "PERSON" then base ++ [("personality", pyGetD n "personality" (.str ""))] else base
            match fmtNodesGo rest (m ++ [(nameV, c)]) (c + 1) with
            | .error e => .error e
            | .ok (os, m2, c2) => .ok (Json.obj [("data", Json.obj nd)] :: os, m2, c2)
    | _ => .error "AttributeError: get"

/-- The edge loop of `format_for_st_link_analysis` (lines 167-186):
the label is fetched and upper-cased (possibly raising) before the
endpoint-membership test; an edge is accepted only when both endpoints
are keys of the name-to-id dict, and only accepted edges consume an id. -/
def fmtEdgesGo (m : List (Json × Nat)) : List Json → List String → Nat → Except String (List Json × List String × Nat)
  | [], labs, k => .ok ([], labs, k)
  | e :: rest, labs, k =>
    match e with
    | .obj _ =>
      let s := pyGetD e "source" .null
      let t := pyGetD e "target" .null
      match pyUpperE (pyGetD e "label" (.str "RELATED_TO")) with
      | .error err => .error err
      | .ok lbl =>
        match pyMemE s m with
        | .error err => .error err
        | .ok false => fmtEdgesGo m rest labs k
        | .ok true =>
          match pyMemE t m with
          | .error err => .error err
          | .ok false => fmtEdgesGo m rest labs k
          | .ok true =>
            let ed := Json.obj [("data", Json.obj
              [("id", Json.str ("e" ++ toString k)), ("label", Json.str lbl),
               ("source", Json.num (toString (lookupId m s))),
               ("target", Json.num (toString (lookupId m t)))])]
            match fmtEdgesGo m rest (labAdd labs lbl) (k + 1) with
            | .error err => .error err
            | .ok (os, labs2, k2) => .ok (ed :: os, labs2, k2)
    | _ => .error "AttributeError: get"

/-- `for x in v`: iteration over a parsed-JSON value.  Only lists
iterate into pipeline-shaped elements; every other value either is not
iterable or yields elements on which the first attribute access raises,
so the error verdict is faithful even though the message is not. -/
def asIter : Json → Except String (List Json)
  | .arr xs => .ok xs
  | _ => .error "TypeError: not a list"

/-- `format_for_st_link_analysis(llm_json_output)` (lines 129-191):
projects the assembled graph dict onto renderer nodes/edges plus style
tables.  Mirrors the Python statement order: node loop first, then edge
loop, then the edge-style table from the collected labels. -/
def format_for_st_link_analysis (j : Json) : Except String (Json × List NodeStyle × List EdgeStyle) :=
  match j with
  | .obj _ =>
    (match asIter (pyGetD j "nodes" (.arr [])) with
     | .error e => .error e
     | .ok ns =>
       match fmtNodesGo ns [] 1 with
       | .error e => .error e
       | .ok (outN, m, _) =>
         match asIter (pyGetD j "edges" (.arr [])) with
         | .error e => .error e
         | .ok es =>
           match fmtEdgesGo m es [] 1 with
           | .error e => .error e
           | .ok (outE, labs, _) =>
             .ok (Json.obj [("nodes", .arr outN), ("edges", .arr outE)], node_styles,
                  labs.map (fun L => ⟨L, "label", true, "#888888"⟩)))
  | _ => .error "AttributeError: get"

/- ===== json.dumps(v, indent=2) (used to serialize the graph for stage 4) ===== -/

/-- One hexadecimal digit, lower-case, as Python prints `\uXXXX`. -/
def hexDigit (n : Nat) : Char := if n < 10 then Char.ofNat (48 + n) else Char.ofNat (87 + n)

/-- Four-digit hexadecimal rendering of a code point. -/
def hex4 (n : Nat) : List Char :=
  [hexDigit (n / 4096 % 16), hexDigit (n / 256 % 16), hexDigit (n / 16 % 16), hexDigit (n % 16)]

/-- JSON string escaping as `json.dumps` performs it with the default
`ensure_ascii` (non-ASCII escaped to `\uXXXX`; astral characters, which
Python splits into surrogate pairs, are simplified to one escape). -/
def escC (c : Char) : List Char :=
  if c == '"' then ['\\', '"']
  else if c == '\\' then ['\\', '\\']
  else if c == '\n' then ['\\', 'n']
  else if c == '\t' then ['\\', 't']
  else if c == '\r' then ['\\', 'r']
  else if c == Char.ofNat 8 then ['\\', 'b']
  else if c == Char.ofNat 12 then ['\\', 'f']
  else if c.toNat < 32 || c.toNat > 126 then '\\' :: 'u' :: hex4 c.toNat
  else [c]

/-- Escape a whole string for JSON output. -/
def escJ (s : String) : String := String.mk (s.toList.foldr (fun c acc => escC c ++ acc) [])

/-- `2 * n` spaces of indentation. -/
def indentPad (n : Nat) : String := String.mk (List.replicate (2 * n) ' ')

mutual

/-- `json.dumps(v, indent=2)` body at a given nesting level. -/
def dumpsV : Nat → Json → String
  | _, .null => "null"
  | _, .bool true => "true"
  | _, .bool false => "false"
  | _, .num lex => lex
  | _, .str s => "\"" ++ escJ s ++ "\""
  | _, .arr [] => "[]"
  | lvl, .arr (x :: xs) => "[\n" ++ dumpsArr (lvl + 1) x xs ++ "\n" ++ indentPad lvl ++ "]"
  | _, .obj [] => "\x7b\x7d"
  | lvl, .obj (e :: es) => "\x7b\n" ++ dumpsObj (lvl + 1) e es ++ "\n" ++ indentPad lvl ++ "\x7d"
termination_by _ j => sizeOf j

/-- Indented, comma-and-newline separated array items. -/
def dumpsArr : Nat → Json → List Json → String
  | lvl, x, [] => indentPad lvl ++ dumpsV lvl x
  | lvl, x, y :: ys => indentPad lvl ++ dumpsV lvl x ++ ",\n" ++ dumpsArr lvl y ys
termination_by _ x xs => sizeOf x + sizeOf xs

/-- Indented, comma-and-newline separated object entries. -/
def dumpsObj : Nat → (String × Json) → List (String × Json) → String
  | lvl, (k, v), [] => indentPad lvl ++ "\"" ++ escJ k ++ "\": " ++ dumpsV lvl v
  | lvl, (k, v), f :: fs => indentPad lvl ++ "\"" ++ escJ k ++ "\": " ++ dumpsV lvl v ++ ",\n" ++ dumpsObj lvl f fs
termination_by _ e es => sizeOf e + sizeOf es

end

/-- `json.dumps(llm_json_output, indent=2)` (line 241). -/
def pyDumps2 (j : Json) : String := dumpsV 0 j

/- ===== PromptBuilder (lines 46-126): exact prompt texts ===== -/

/-- `build_step1_prompt(document_text)` (lines 46-61). -/
def build_step1_prompt (document_text : String) : String :=
  "\n    You are an AI assistant for knowledge graph extraction.\n    Your task is to read the following document and perform Step 1: Entity Extraction.\n    1. Identify all key entities (people, organizations, locations, events, concepts).\n    2. Categorize each entity with one of: \"PERSON\", \"ORGANIZATION\", \"LOCATION\", \"EVENT\", \"CONCEPT\".\n    3. Normalize entities.\n\n    Your output MUST be only a JSON list of node objects with \"name\" and \"label\".\n\n    Here is the document:\n    ---\n    "
  ++ document_text ++ "\n    ---\n    "

/-- `build_step2_prompt(person_name, document_text)` (lines 64-76). -/
def build_step2_prompt (person_name document_text : String) : String :=
  "\n    You are an AI assistant for personality analysis.\n    Analyze the personality of \"" ++ person_name
  ++ "\" based only on the document.\n\n    Output MUST be a JSON object: \x7b\"personality\": \"comma-separated traits\"\x7d. If none, return empty string.\n\n    Document:\n    ---\n    "
  ++ document_text ++ "\n    ---\n    "

/-- `build_step3_prompt(node_names, document_text)` (lines 79-92); the
name list is interpolated via `", ".join(f'"{name}"' ...)`. -/
def build_step3_prompt (node_names : List Json) (document_text : String) : String :=
  let entity_list_str := String.intercalate ", " (node_names.map (fun n => "\"" ++ pyStr n ++ "\""))
  "\n    You are an AI assistant for relationship extraction.\n    Find relationships only between the following entities:\n    [ "
  ++ entity_list_str
  ++ " ]\n    Output MUST be a JSON list of edge objects with \"source\", \"label\", \"target\".\n\n    Document:\n    ---\n    "
  ++ document_text ++ "\n    ---\n    "

/-- `build_step4_prompt(document_text, generated_json_string)` (lines 95-126). -/
def build_step4_prompt (document_text generated_json_string : String) : String :=
  "\n    You are an AI Scoring Agent specializing in Knowledge Graph evaluation.\n    Your task is to evaluate the quality of the \"GENERATED_JSON\" as an extraction from the \"ORIGINAL_DOCUMENT\".\n\n    Evaluate two key metrics on a scale of 1 to 10:\n\n    1.  **Correctness Score:**\n        * Is every node, edge, and personality trait in the JSON 100% supported by the document?\n        * Penalize heavily for any hallucinations, fabrications, or misinterpretations.\n        * A 10/10 means zero fabricated information.\n\n    2.  **Completeness Score:**\n        * Does the JSON capture the *most important* entities, relationships, and personalities?\n        * Penalize for missing key people, main events, or critical relationships mentioned.\n        * A 10/10 means all key knowledge is present.\n\n    Your output MUST be a JSON object with two keys:\n    1.  `correctness_score`: An integer (1-10).\n    2.  `completeness_score`: An integer (1-10).\n\n    ---\n    ORIGINAL_DOCUMENT:\n    "
  ++ document_text ++ "\n    ---\n    GENERATED_JSON:\n    " ++ generated_json_string
  ++ "\n    ---\n\n    Now, generate your evaluation JSON.\n    "

/- ===== PipelineOrchestrator: the module-level run (lines 197-267) ===== -/

/-- Severity of a user-visible Streamlit message. -/
inductive Sev where
  | error : Sev
  | warning : Sev
  | success : Sev
deriving Repr, DecidableEq

/-- Observable outcome of one pipeline run: the user-visible messages in
emission order, whether `st.stop()` ended the run early, the prompts
sent to the oracle in order, the assembled graph dict (`llm_json_output`),
the displayed quality scores, and the projected elements handed to the
renderer. -/
structure RunResult where
  messages : List (Sev × String)
  stopped : Bool
  calls : List String
  graph : Option Json
  scores : Option (Json × Json)
  rendered : Option Json
deriving Repr

/-- The Step-2 loop (lines 216-223): for each entity in stage-1 order,
a `PERSON`-labelled entity gets one personality call whose failure is
absorbed into an empty-string personality; every entity, person or not,
is appended to `final_nodes` in order.  Returns the accumulated entities
and the personality prompts issued. -/
def step2Loop (gemini : String → Except String Json) (doc : String) : List Json → Except String (List Json × List String)
  | [] => .ok ([], [])
  | n :: rest =>
    match n with
    | .obj _ =>
      if pyEq (pyGetD n "label" .null) (.str "PERSON") then
        match pyGetOpt n "name" with
        | none => .error "KeyError: name"
        | some nameV =>
          let p := build_step2_prompt (pyStr nameV) doc
          match gemini p with
          | .error _ =>
            (match step2Loop gemini doc rest with
             | .error e => .error e
             | .ok (fs, cs) => .ok (objInsert "personality" (.str "") n :: fs, p :: cs))
          | .ok pj =>
            match pj with
            | .obj _ =>
              (match step2Loop gemini doc rest with
               | .error e => .error e
               | .ok (fs, cs) => .ok (objInsert "personality" (pyGetD pj "personality" (.str "")) n :: fs, p :: cs))
            | _ => .error "AttributeError: get"
      else
        match step2Loop gemini doc rest with
        | .error e => .error e
        | .ok (fs, cs) => .ok (n :: fs, cs)
    | _ => .error "AttributeError: get"

/-- `[n["name"] for n in final_nodes]` (line 227): subscript access, so a
missing name raises `KeyError`. -/
def namesOf : List Json → Except String (List Json)
  | [] => .ok []
  | n :: rest =>
    match subscriptE n "name" with
    | .error e => .error e
    | .ok v =>
      match namesOf rest with
      | .error e => .error e
      | .ok vs => .ok (v :: vs)

/-- `len(elements[k])` for the success banner (line 263). -/
def jLenKey (j : Json) (k : String) : Nat :=
  match pyGetOpt j k with
  | some (.arr a) => a.length
  | _ => 0

/-- The tail shared by both Step-4 outcomes (lines 258-267): project the
assembled graph, announce the node/edge counts, and hand the elements to
the renderer. -/
def finishRun (msgs : List (Sev × String)) (calls : List String) (llm : Json)
    (scores : Option (Json × Json)) : Except String RunResult :=
  match format_for_st_link_analysis llm with
  | .error err => .error err
  | .ok (elements, _, _) =>
    .ok ⟨msgs ++ [(.success, "Graph generation complete! " ++ toString (jLenKey elements "nodes")
          ++ " nodes, " ++ toString (jLenKey elements "edges") ++ " edges.")],
         false, calls, some llm, scores, some elements⟩

/-- The `final_edges` value after the Step-3 block (lines 229-232): the
parsed list on success, emptied on failure. -/
def step3Edges : Except String Json → Json
  | .error _ => Json.arr []
  | .ok ej => ej

/-- The messages the Step-3 block emits (lines 230-231): an `st.error`
on failure, nothing on success. -/
def step3Msgs : Except String Json → List (Sev × String)
  | .error e => [(.error, "Error in Step 3: " ++ e)]
  | .ok _ => []

/-- The dispatch on the Step-4 call outcome (lines 244-256): a failure
becomes an `st.warning` and no scores; a dict response carries the two
scores; any other response type crashes on `.get`. -/
def step4Finish (msgs3 : List (Sev × String)) (calls : List String) (llm : Json) :
    Except String Json → Except String RunResult
  | .error e =>
    finishRun (msgs3 ++ [(.warning, "Warning: The evaluation step failed. " ++ e)]) calls llm none
  | .ok ev =>
    match ev with
    | .obj _ =>
      finishRun msgs3 calls llm
        (some (pyGetD ev "correctness_score" (.num "0"), pyGetD ev "completeness_score" (.num "0")))
    | _ => .error "AttributeError: get"

/-- The module-level pipeline (lines 197-267), parameterized by the
oracle `gemini` (one `call_gemini` outcome per prompt), the truthiness
of the configured API key, and the uploaded document text.  `.error`
models an uncaught Python exception; `.ok` carries the run's observable
outcome. -/
def runPipeline (gemini : String → Except String Json) (keyTruthy : Bool) (doc : String) : Except String RunResult :=
  if !keyTruthy then
    .ok ⟨[(.error, "Please add your GEMINI_API_KEY to st.secrets to proceed.")], false, [], none, none, none⟩
  else
    let p1 := build_step1_prompt doc
    match gemini p1 with
    | .error e => .ok ⟨[(.error, "Error in Step 1: " ++ e)], true, [p1], none, none, none⟩
    | .ok nodesJ =>
      if !(pyTruthy nodesJ) then
        .ok ⟨[(.warning, "No entities found in the document.")], true, [p1], none, none, none⟩
      else
        match asIter nodesJ with
        | .error e => .error e
        | .ok ns =>
          match step2Loop gemini doc ns with
          | .error e => .error e
          | .ok (finals, calls2) =>
            match namesOf finals with
            | .error e => .error e
            | .ok nameVals =>
              let p3 := build_step3_prompt nameVals doc
              let edgesJ := match gemini p3 with | .error _ => Json.arr [] | .ok ej => ej
              let msgs3 : List (Sev × String) :=
                match gemini p3 with | .error e => [(.error, "Error in Step 3: " ++ e)] | .ok _ => []
              let llm := Json.obj [("nodes", .arr finals), ("edges", edgesJ)]
              let p4 := build_step4_prompt doc (pyDumps2 llm)
              let calls := [p1] ++ calls2 ++ [p3, p4]
              match gemini p4 with
              | .error e =>
                finishRun (msgs3 ++ [(.warning, "Warning: The evaluation step failed. " ++ e)]) calls llm none
              | .ok ev =>
                match ev with
                | .obj _ =>
                  finishRun msgs3 calls llm
                    (some (pyGetD ev "correctness_score" (.num "0"), pyGetD ev "completeness_score" (.num "0")))
                | _ => .error "AttributeError: get"

/- ===== Characterization definitions (spec-side, for refinement statements) ===== -/

/-- Shape guard: the value is a dict. -/
def isObjJ : Json → Bool
  | .obj _ => true
  | _ => false

/-- Shape guard: field `k`, when present, is a string. -/
def strOrAbsent (n : Json) (k : String) : Bool :=
  match pyGetOpt n k with
  | none => true
  | some (.str _) => true
  | some _ => false

/-- Shape guard: field `k`, when present, is a string or `None`. -/
def strNullOrAbsent (n : Json) (k : String) : Bool :=
  match pyGetOpt n k with
  | none => true
  | some (.str _) => true
  | some .null => true
  | some _ => false

/-- A node element on which the projector's node loop cannot raise:
a dict whose `label` (if present) is a string and whose `name` (if
present) is a string or `None`. -/
def nodeOkB (n : Json) : Bool :=
  isObjJ n && strOrAbsent n "label" && strNullOrAbsent n "name"

/-- An edge element on which the projector's edge loop cannot raise. -/
def edgeOkB (e : Json) : Bool :=
  isObjJ e && strOrAbsent e "label" && strNullOrAbsent e "source" && strNullOrAbsent e "target"

/-- Spec-side reading of a node's name: present and a string. -/
def specNodeName (n : Json) : Option String :=
  match pyGetOpt n "name" with
  | some (.str s) => some s
  | _ => none

/-- Spec-side filter over a node list: keep the first occurrence of each
non-empty name (exact string equality against the names already seen),
skip empty-named, nameless and duplicate-named nodes. -/
def specAccepted : List Json → List String → List Json
  | [], _ => []
  | n :: rest, seen =>
    match specNodeName n with
    | some s =>
      if !(s == "") && !(seen.contains s) then n :: specAccepted rest (seen ++ [s])
      else specAccepted rest seen
    | none => specAccepted rest seen

/-- Spec-side node label: upper-cased, defaulting to `ENTITY`. -/
def specLabel (n : Json) : String :=
  match pyGetOpt n "label" with
  | some (.str s) => upperS s
  | _ => "ENTITY"

/-- Spec-side node payload at a given id: id, upper-cased label, name,
and a `personality` field exactly when the label is `PERSON`. -/
def specNodeData (n : Json) (c : Nat) : Json :=
  let lbl := specLabel n
  let base := [("id", Json.num (toString c)), ("label", Json.str lbl), ("name", pyGetD n "name" .null)]
  Json.obj [("data", Json.obj (if lbl == "PERSON" then base ++ [("personality", pyGetD n "personality" (.str ""))] else base))]

/-- Output nodes for an accepted list, ids assigned consecutively from `c`. -/
def specRenderNodes : Nat → List Json → List Json
  | _, [] => []
  | c, n :: rest => specNodeData n c :: specRenderNodes (c + 1) rest

/-- Name-to-id entries for an accepted list, ids consecutive from `c`. -/
def specRenderMap : Nat → List Json → List (Json × Nat)
  | _, [] => []
  | c, n :: rest => (pyGetD n "name" .null, c) :: specRenderMap (c + 1) rest

/-- The string names already bound in a name-to-id dict. -/
def seenOf (m : List (Json × Nat)) : List String :=
  m.filterMap (fun e => match e.1 with | .str s => some s | _ => none)

/-- Spec-side acceptance test for an edge: both endpoint names are keys
of the name-to-id dict. -/
def specEdgeKeep (m : List (Json × Nat)) (e : Json) : Bool :=
  (m.any (fun en => pyEq (pyGetD e "source" .null) en.1)) &&
  (m.any (fun en => pyEq (pyGetD e "target" .null) en.1))

/-- Spec-side edge label: upper-cased, defaulting to `RELATED_TO`. -/
def specEdgeLabel (e : Json) : String :=
  match pyGetOpt e "label" with
  | some (.str s) => upperS s
  | _ => "RELATED_TO"

/-- Spec-side edge payload at 1-based counter `k`. -/
def specEdgeData (m : List (Json × Nat)) (e : Json) (k : Nat) : Json :=
  Json.obj [("data", Json.obj
    [("id", Json.str ("e" ++ toString k)), ("label", Json.str (specEdgeLabel e)),
     ("source", Json.num (toString (lookupId m (pyGetD e "source" .null)))),
     ("target", Json.num (toString (lookupId m (pyGetD e "target" .null))))])]

/-- Output edges for an accepted list, edge ids consecutive from `k`. -/
def specRenderEdges (m : List (Json × Nat)) : Nat → List Json → List Json
  | _, [] => []
  | k, e :: rest => specEdgeData m e k :: specRenderEdges m (k + 1) rest

/-- The distinct upper-cased labels of the accepted edges, in first-use
order, starting from an accumulator. -/
def specLabels (labs : List String) : List Json → List String
  | [] => labs
  | e :: rest => specLabels (labAdd labs (specEdgeLabel e)) rest

/-- Stage-2 hypotheses for one node: a dict, and if `PERSON`-labelled it
has a `name` and the oracle's personality response (if successful) is a
dict. -/
def respOkB : Except String Json → Bool
  | .error _ => true
  | .ok (.obj _) => true
  | .ok _ => false

/-- Whether a stage-1 entity is `PERSON`-labelled (`node.get("label") == "PERSON"`). -/
def isPersonNode (n : Json) : Bool := pyEq (pyGetD n "label" .null) (.str "PERSON")

/-- The personality prompt the Step-2 loop issues for a person node. -/
def personPrompt (doc : String) (n : Json) : String :=
  build_step2_prompt (pyStr (pyGetD n "name" .null)) doc

/-- What the Step-2 loop does to one entity: non-persons pass through
unchanged; a person gets `personality` set from its call — the empty
string on failure, `response.get("personality", "")` on success. -/
def step2Transform (gemini : String → Except String Json) (doc : String) (n : Json) : Json :=
  if isPersonNode n then
    match gemini (personPrompt doc n) with
    | .error _ => objInsert "personality" (.str "") n
    | .ok pj => objInsert "personality" (pyGetD pj "personality" (.str "")) n
  else n

/-- The personality prompts of a stage-1 list, in order (persons only). -/
def step2PromptsOf (doc : String) (ns : List Json) : List String :=
  ns.filterMap (fun n => if isPersonNode n then some (personPrompt doc n) else none)

/-- Per-node hypothesis for the Step-2 loop: dict-shaped, and persons
carry a `name` and get an error-or-dict oracle response. -/
def nodeC8OkB (gemini : String → Except String Json) (doc : String) (n : Json) : Bool :=
  isObjJ n && (!(isPersonNode n) || ((pyGetOpt n "name").isSome && respOkB (gemini (personPrompt doc n))))

/- ===== Concrete fixtures for witnesses and counterexamples ===== -/

/-- A projector input whose single node has a present-but-`None` label. -/
def c3BadInput : Json :=
  .obj [("nodes", .arr [.obj [("name", .str "A"), ("label", .null)]]), ("edges", .arr [])]

/-- A projector input exercising only missing fields (no label anywhere,
one edge with a known and an unknown endpoint). -/
def c3GoodInput : Json :=
  .obj [("nodes", .arr [.obj [("name", .str "A")]]),
        ("edges", .arr [.obj [("source", .str "A"), ("target", .str "A")],
                        .obj [("source", .str "A"), ("target", .str "B")]])]

/-- The spec §8 end-to-end projector input: Alice/Bob (persons with
stage-2 personalities), Acme Corp, Paris, and two relationships. -/
def c9Input : Json :=
  .obj [("nodes", .arr
          [.obj [("name", .str "Alice"), ("label", .str "PERSON"), ("personality", .str "curious, brave")],
           .obj [("name", .str "Bob"), ("label", .str "PERSON"), ("personality", .str "calm")],
           .obj [("name", .str "Acme Corp"), ("label", .str "ORGANIZATION")],
           .obj [("name", .str "Paris"), ("label", .str "LOCATION")]]),
        ("edges", .arr
          [.obj [("source", .str "Alice"), ("label", .str "works_at"), ("target", .str "Acme Corp")],
           .obj [("source", .str "Alice"), ("label", .str "met"), ("target", .str "Bob")]])]

/-- Tiny document used by the concrete pipeline runs. -/
def cDoc : String := "d"

/-- One non-person stage-1 entity. -/
def cAlice : Json := .obj [("name", .str "Alice"), ("label", .str "ORGANIZATION")]

/-- A stage-3 relationship whose target is not an accepted entity and
whose label is lower-case. -/
def cBadEdge : Json := .obj [("source", .str "Alice"), ("label", .str "met"), ("target", .str "Ghost")]

/-- Oracle for the C4 run: stage 1 yields `[cAlice]`, stage 3 yields
`[cBadEdge]`, and every other call (here only stage 4) succeeds with a
well-formed score object. -/
def oracleC4 (p : String) : Except String Json :=
  if p == build_step1_prompt cDoc then .ok (.arr [cAlice])
  else if p == build_step3_prompt [Json.str "Alice"] cDoc then .ok (.arr [cBadEdge])
  else .ok (.obj [("correctness_score", .num "5"), ("completeness_score", .num "5")])

/-- Oracle for the C2 run: stage 1 yields `[cAlice]`, stage 3 fails,
stage 4 succeeds. -/
def oracleC2 (p : String) : Except String Json :=
  if p == build_step1_prompt cDoc then .ok (.arr [cAlice])
  else if p == build_step3_prompt [Json.str "Alice"] cDoc then .error "boom"
  else .ok (.obj [("correctness_score", .num "5"), ("completeness_score", .num "5")])

/-- Oracle that fails every call. -/
def oracleFail (_ : String) : Except String Json := .error "http 500"

/-- Oracle that answers every call with an empty list. -/
def oracleEmpty (_ : String) : Except String Json := .ok (.arr [])

/-- A person entity for the Step-2 witness. -/
def cBob : Json := .obj [("name", .str "Bob"), ("label", .str "PERSON")]

/-- The part of its input a successful parser call consumed: a non-empty
prefix whose final character is never a backtick (every JSON value ends
in `}`/`]`/`"`/a digit/a letter of a literal). -/
def ConsumedOk (l r : List Char) : Prop :=
  ∃ p, p ≠ [] ∧ p.getLast? ≠ some backtick ∧ l = p ++ r

/-- Shape guard: the value is a string. -/
def isStrJ : Json → Bool
  | .str _ => true
  | _ => false

/-- A node list with a duplicate name and an empty name, for the
deduplication witness: only `A` (first occurrence) and `B` get ids. -/
def cDupNodes : List Json :=
  [.obj [("name", .str "A"), ("label", .str "x")],
   .obj [("name", .str "A"), ("label", .str "y")],
   .obj [("name", .str "")],
   .obj [("name", .str "B")]]

/-- Edge list for the C6 witness: a kept edge, an edge with an unknown
endpoint (consumes no id), then another kept edge. -/
def cMixEdges : List Json :=
  [.obj [("source", .str "A"), ("label", .str "r1"), ("target", .str "B")],
   .obj [("source", .str "A"), ("label", .str "zz"), ("target", .str "Ghost")],
   .obj [("source", .str "B"), ("target", .str "A")]]

/-- A two-entry name-to-id dict for the C6 witness. -/
def cMixMap : List (Json × Nat) := [(.str "A", 1), (.str "B", 2)]

/-- Projector-input shape on which only missing fields occur: a dict
whose `nodes`/`edges` entries, when present, are lists of well-shaped
elements (present `label`s are strings; present `name`/`source`/`target`
fields are strings or `None`). -/
def jOkB (j : Json) : Bool :=
  isObjJ j &&
  (match pyGetOpt j "nodes" with
   | none => true
   | some (.arr ns) => ns.all nodeOkB
   | some _ => false) &&
  (match pyGetOpt j "edges" with
   | none => true
   | some (.arr es) => es.all edgeOkB
   | some _ => false)

/- ===== Theorems ===== -/

/-- C10: in `call_gemini`, the leading `"```json"` marker and the
trailing `"```"` marker are stripped independently: the 7-character
prefix is removed even with no trailing fence; the 3-character suffix is
removed even with no `"```json"` prefix; and a text opening with a bare
`"```"` (no `json` tag) gets no prefix-stripping at all — only the
suffix rule applies to it. -/
theorem c10_fence_markers_independent :
    (∀ l : List Char, startsWithL fenceJson l = true → endsWithL fenceTicks (l.drop 7) = false →
      stripFences l = l.drop 7) ∧
    (∀ l : List Char, startsWithL fenceJson l = false → endsWithL fenceTicks l = true →
      stripFences l = l.take (l.length - 3)) ∧
    (∀ l : List Char, startsWithL fenceTicks l = true → startsWithL fenceJson l = false →
      stripFences l = (if endsWithL fenceTicks l then l.take (l.length - 3) else l)) := by
  refine ⟨fun l h1 h2 => ?_, fun l h1 h2 => ?_, fun l h1 h2 => ?_⟩
  · simp [stripFences, h1, h2]
  · simp [stripFences, h1, h2]
  · simp [stripFences, h2]

/-- Witness for C10 at concrete inputs: a fenced-open-only text, a
fenced-close-only text, and a bare-``` opener. -/
theorem c10_witness :
    stripFences "```json\n1".toList = "```json\n1".toList.drop 7 ∧
    stripFences "2```".toList = "2```".toList.take ("2```".toList.length - 3) ∧
    stripFences "```\n3\n```".toList =
      (if endsWithL fenceTicks "```\n3\n```".toList
       then "```\n3\n```".toList.take ("```\n3\n```".toList.length - 3)
       else "```\n3\n```".toList) :=
  ⟨c10_fence_markers_independent.1 _ (by decide) (by decide),
   c10_fence_markers_independent.2.1 _ (by decide) (by decide),
   c10_fence_markers_independent.2.2 _ (by decide) (by decide)⟩

/-- C9: on the spec §8 end-to-end input (Alice/Bob persons with stage-2
personalities, Acme Corp, Paris, and the works_at/met relationships) the
projector yields exactly 4 nodes with ids 1–4 in listed order, edges
`e1`/`WORKS_AT` and `e2`/`MET`, and a `personality` field on exactly the
two `PERSON` nodes. -/
theorem c9_end_to_end_projection :
    format_for_st_link_analysis c9Input = .ok
      (Json.obj
        [("nodes", .arr
          [.obj [("data", .obj [("id", .num "1"), ("label", .str "PERSON"), ("name", .str "Alice"),
                                ("personality", .str "curious, brave")])],
           .obj [("data", .obj [("id", .num "2"), ("label", .str "PERSON"), ("name", .str "Bob"),
                                ("personality", .str "calm")])],
           .obj [("data", .obj [("id", .num "3"), ("label", .str "ORGANIZATION"), ("name", .str "Acme Corp")])],
           .obj [("data", .obj [("id", .num "4"), ("label", .str "LOCATION"), ("name", .str "Paris")])]]),
         ("edges", .arr
          [.obj [("data", .obj [("id", .str "e1"), ("label", .str "WORKS_AT"),
                                ("source", .num "1"), ("target", .num "3")])],
           .obj [("data", .obj [("id", .str "e2"), ("label", .str "MET"),
                                ("source", .num "1"), ("target", .num "2")])]])],
       node_styles,
       [⟨"WORKS_AT", "label", true, "#888888"⟩, ⟨"MET", "label", true, "#888888"⟩]) := by
  rfl

/-- Counterexample to C3 as stated: a node whose `label` field is
present but `null` makes `format_for_st_link_analysis` raise
(`None.upper()` is an `AttributeError`) instead of degrading to a
default. -/
theorem c3_counterexample :
    format_for_st_link_analysis c3BadInput = .error "AttributeError: upper" := by
  rfl

/-- C1: a failed stage-1 call aborts the run with the error surfaced
(`st.error` then `st.stop`): no graph is assembled or rendered and no
further oracle call is made.  A successful stage-1 call returning the
empty entity list aborts before stage 2 with the "no entities" warning
(not an error), again with no graph. -/
theorem c1_stage1_strict_abort :
    (∀ (gemini : String → Except String Json) (doc e : String),
      gemini (build_step1_prompt doc) = .error e →
      runPipeline gemini true doc =
        .ok ⟨[(.error, "Error in Step 1: " ++ e)], true, [build_step1_prompt doc], none, none, none⟩) ∧
    (∀ (gemini : String → Except String Json) (doc : String),
      gemini (build_step1_prompt doc) = .ok (.arr []) →
      runPipeline gemini true doc =
        .ok ⟨[(.warning, "No entities found in the document.")], true, [build_step1_prompt doc], none, none, none⟩) := by
  constructor
  · intro g doc e h
    simp [runPipeline, h]
  · intro g doc h
    simp [runPipeline, h, pyTruthy]

/-- Witness for C1: a concrete failing oracle and a concrete
empty-list oracle. -/
theorem c1_witness :
    runPipeline oracleFail true "x" =
      .ok ⟨[(.error, "Error in Step 1: http 500")], true, [build_step1_prompt "x"], none, none, none⟩ ∧
    runPipeline oracleEmpty true "x" =
      .ok ⟨[(.warning, "No entities found in the document.")], true, [build_step1_prompt "x"], none, none, none⟩ :=
  ⟨c1_stage1_strict_abort.1 oracleFail "x" "http 500" rfl,
   c1_stage1_strict_abort.2 oracleEmpty "x" rfl⟩

/- ----- whitespace-trimming lemmas for the completion client ----- -/

lemma dropWs_cons_ws {c : Char} (hc : isWs c = true) (x : List Char) :
    dropWs (c :: x) = dropWs x := by
  simp [dropWs, List.dropWhile_cons, hc]

lemma dropWs_cons_not {c : Char} (hc : isWs c = false) (x : List Char) :
    dropWs (c :: x) = c :: x := by
  simp [dropWs, List.dropWhile_cons, hc]

lemma dropWs_append_ws (a x : List Char) (ha : ∀ c ∈ a, isWs c = true) :
    dropWs (a ++ x) = dropWs x := by
  induction a with
  | nil => rfl
  | cons c a ih =>
    rw [List.cons_append, dropWs_cons_ws (ha c (by simp))]
    exact ih (fun d hd => ha d (by simp [hd]))

lemma dropWs_append_of_ne (x b : List Char) (hx : dropWs x ≠ []) :
    dropWs (x ++ b) = dropWs x ++ b := by
  induction x with
  | nil => simp [dropWs] at hx
  | cons c x ih =>
    cases hc : isWs c with
    | true =>
      rw [List.cons_append, dropWs_cons_ws hc, dropWs_cons_ws hc]
      rw [dropWs_cons_ws hc] at hx
      exact ih hx
    | false =>
      rw [List.cons_append, dropWs_cons_not hc, dropWs_cons_not hc]
      simp

lemma dropWs_append_single (a : List Char) {c : Char} (hc : isWs c = false) :
    dropWs (a ++ [c]) = dropWs a ++ [c] := by
  by_cases h : dropWs a = []
  · have ha : ∀ d ∈ a, isWs d = true := List.dropWhile_eq_nil_iff.mp h
    rw [dropWs_append_ws a [c] ha, h, dropWs_cons_not hc]
    simp

  · exact dropWs_append_of_ne a [c] h

lemma trimBoth_ws_append (a x : List Char) (ha : ∀ c ∈ a, isWs c = true) :
    trimBoth (a ++ x) = trimBoth x := by
  unfold trimBoth
  rw [dropWs_append_ws a x ha]

lemma trimBoth_append_ws (x b : List Char) (hb : ∀ c ∈ b, isWs c = true) :
    trimBoth (x ++ b) = trimBoth x := by
  by_cases h : dropWs x = []
  · have hx : ∀ d ∈ x, isWs d = true := List.dropWhile_eq_nil_iff.mp h
    have h1 : dropWs (x ++ b) = [] := by
      rw [dropWs_append_ws x b hx]
      exact List.dropWhile_eq_nil_iff.mpr hb
    unfold trimBoth
    rw [h1, h]
  · unfold trimBoth
    rw [dropWs_append_of_ne x b h, List.reverse_append,
        dropWs_append_ws b.reverse (dropWs x).reverse
          (fun c hc => hb c (List.mem_reverse.mp hc))]

lemma trimBoth_wrapNl (t : List Char) :
    trimBoth ('\n' :: (t ++ ['\n'])) = trimBoth t := by
  have h1 : ('\n' :: (t ++ ['\n'])) = ['\n'] ++ (t ++ ['\n']) := rfl
  rw [h1, trimBoth_ws_append _ _ (by intro c hc; simp at hc; subst hc; rfl),
      trimBoth_append_ws _ _ (by intro c hc; simp at hc; subst hc; rfl)]

lemma jsonLoads_congr {l1 l2 : List Char} (h : trimBoth l1 = trimBoth l2) :
    jsonLoads l1 = jsonLoads l2 := by
  unfold jsonLoads
  rw [h]

/- ----- fence-stripping computation lemmas ----- -/

lemma startsWithL_append_self (p r : List Char) : startsWithL p (p ++ r) = true := by
  induction p with
  | nil => rfl
  | cons c p ih => simp [startsWithL, ih]

lemma startsWithL_ex {p l : List Char} (h : startsWithL p l = true) : ∃ r, l = p ++ r := by
  induction p generalizing l with
  | nil => exact ⟨l, rfl⟩
  | cons c p ih =>
    cases l with
    | nil => simp [startsWithL] at h
    | cons b l2 =>
      simp only [startsWithL, Bool.and_eq_true, beq_iff_eq] at h
      obtain ⟨h1, h2⟩ := h
      subst h1
      obtain ⟨r, rfl⟩ := ih h2
      exact ⟨r, rfl⟩

lemma endsWithL_append_self (x p : List Char) : endsWithL p (x ++ p) = true := by
  unfold endsWithL
  rw [List.reverse_append]
  exact startsWithL_append_self _ _

lemma endsWithL_ex {p l : List Char} (h : endsWithL p l = true) : ∃ x, l = x ++ p := by
  obtain ⟨r, hr⟩ := startsWithL_ex h
  refine ⟨r.reverse, ?_⟩
  have h2 := congrArg List.reverse hr
  simpa using h2

lemma wrapFence_eq (t : List Char) :
    wrapFence t = fenceJson ++ (('\n' :: (t ++ ['\n'])) ++ fenceTicks) := by
  unfold wrapFence fenceJson fenceTicks
  have h1 : "```json\n".toList = "```json".toList ++ ['\n'] := by decide
  rw [h1]
  simp

lemma stripFences_wrap (t : List Char) :
    stripFences (wrapFence t) = '\n' :: (t ++ ['\n']) := by
  rw [wrapFence_eq]
  unfold stripFences
  rw [startsWithL_append_self]
  have hdrop : (fenceJson ++ (('\n' :: (t ++ ['\n'])) ++ fenceTicks)).drop 7 =
      ('\n' :: (t ++ ['\n'])) ++ fenceTicks := by
    have h7 : 7 = fenceJson.length := by decide
    rw [h7]
    exact List.drop_left _ _
  simp only [if_true, hdrop, endsWithL_append_self]
  have hlen : (('\n' :: (t ++ ['\n'])) ++ fenceTicks).length - 3 = ('\n' :: (t ++ ['\n'])).length := by
    have h3 : fenceTicks.length = 3 := by decide
    simp [List.length_append, h3]
  rw [hlen]
  exact List.take_left _ _

lemma extractPayload_wrap (t : List Char) : extractPayload (wrapFence t) = jsonLoads t := by
  unfold extractPayload
  rw [stripFences_wrap]
  exact jsonLoads_congr (trimBoth_wrapNl t)

/- ----- the consumed-prefix invariant of the JSON parser ----- -/

lemma consumedOk_concat (x : List Char) (c : Char) (r : List Char) (hc : ¬ c = backtick) :
    ConsumedOk (x ++ c :: r) r := by
  refine ⟨x ++ [c], by simp, ?_, by simp⟩
  rw [List.getLast?_concat]
  simp [hc]

lemma consumedOk_extend (a : List Char) {m r : List Char} (h : ConsumedOk m r) :
    ConsumedOk (a ++ m) r := by
  obtain ⟨p, hp, hlast, rfl⟩ := h
  refine ⟨a ++ p, by simp [hp], ?_, by simp⟩
  rw [List.getLast?_append]
  cases hq : p.getLast? with
  | none => exact absurd (List.getLast?_eq_none_iff.mp hq) hp
  | some c =>
    rw [hq] at hlast
    simpa using hlast

lemma consumedOk_cons (c : Char) {m r : List Char} (h : ConsumedOk m r) :
    ConsumedOk (c :: m) r :=
  consumedOk_extend [c] h

lemma takeWs_append_dropWs (l : List Char) : l.takeWhile isWs ++ dropWs l = l :=
  List.takeWhile_append_dropWhile _ _


lemma parseStrAux_consumed_aux : ∀ (n : Nat) (l : List Char), l.length ≤ n →
    ∀ s r, parseStrAux l = some (s, r) → ∃ p, l = p ++ '"' :: r := by
  intro n
  induction n with
  | zero =>
    intro l hl s r h
    have hnil : l = [] := List.eq_nil_of_length_eq_zero (Nat.le_zero.mp hl)
    subst hnil
    simp [parseStrAux] at h
  | succ n ihn =>
    intro l hl s r h
    rw [parseStrAux.eq_def] at h
    split at h
    · simp at h
    · rename_i x r0
      simp only [Option.some.injEq, Prod.mk.injEq] at h
      exact ⟨[], by simp [h.2]⟩
    · rename_i c r0
      cases hps : parseStrAux r0 with
      | none => rw [hps] at h; simp at h
      | some pr =>
        obtain ⟨s1, r1⟩ := pr
        rw [hps] at h
        simp only [Option.map_some', Option.some.injEq, Prod.mk.injEq] at h
        obtain ⟨p, hp⟩ := ihn r0 (by simp at hl; omega) s1 r1 hps
        refine ⟨'\\' :: c :: p, ?_⟩
        rw [hp, ← h.2]
        simp
    · simp at h
    · rename_i a c r0 hne1 hne2 hne3
      cases hps : parseStrAux r0 with
      | none => rw [hps] at h; simp at h
      | some pr =>
        obtain ⟨s1, r1⟩ := pr
        rw [hps] at h
        simp only [Option.map_some', Option.some.injEq, Prod.mk.injEq] at h
        obtain ⟨p, hp⟩ := ihn r0 (by simp at hl; omega) s1 r1 hps
        refine ⟨c :: p, ?_⟩
        rw [hp, ← h.2]
        simp

lemma parseStrAux_consumed {l s r : List Char} (h : parseStrAux l = some (s, r)) :
    ∃ p, l = p ++ '"' :: r :=
  parseStrAux_consumed_aux l.length l le_rfl s r h

lemma numChar_of_head {c : Char} (hc : (c == '-' || c.isDigit) = true) : numChar c = true := by
  rcases Bool.or_eq_true_iff.mp hc with h | h <;> simp [numChar, h]

lemma consumed_stepV (f : Nat)
    (ihA : ∀ l xs r, parseArrItems f l = some (xs, r) → ConsumedOk l r)
    (ihO : ∀ l kvs r, parseObjItems f l = some (kvs, r) → ConsumedOk l r) :
    ∀ l v r, parseVal (f + 1) l = some (v, r) → ConsumedOk l r := by
  intro l v r h
  rw [parseVal.eq_def] at h
  split at h
  · simp at h
  · rename_i n r0 hfe
    simp only [Option.some.injEq, Prod.mk.injEq] at h
    rw [← h.2]
    exact consumedOk_concat ['n', 'u', 'l'] 'l' r0 (by decide)
  · rename_i n r0 hfe
    simp only [Option.some.injEq, Prod.mk.injEq] at h
    rw [← h.2]
    exact consumedOk_concat ['t', 'r', 'u'] 'e' r0 (by decide)
  · rename_i n r0 hfe
    simp only [Option.some.injEq, Prod.mk.injEq] at h
    rw [← h.2]
    exact consumedOk_concat ['f', 'a', 'l', 's'] 'e' r0 (by decide)
  · rename_i n r0 hfe
    cases hps : parseStrAux r0 with
    | none => rw [hps] at h; simp at h
    | some pr =>
      obtain ⟨s1, r1⟩ := pr
      rw [hps] at h
      simp only [Option.map_some', Option.some.injEq, Prod.mk.injEq] at h
      obtain ⟨p, hp⟩ := parseStrAux_consumed hps
      rw [hp, ← h.2]
      exact consumedOk_concat ('"' :: p) '"' r1 (by decide)
  · rename_i f2 r0 hfe
    have hf2 : f2 = f := by omega
    rw [hf2] at h
    split at h
    · rename_i x2 r2 heq2
      simp only [Option.some.injEq, Prod.mk.injEq] at h
      rw [← h.2]
      have hr0 := takeWs_append_dropWs r0
      rw [heq2] at hr0
      rw [← hr0]
      exact consumedOk_cons '[' (consumedOk_extend _ (consumedOk_concat [] ']' r2 (by decide)))
    · cases hpa : parseArrItems f (dropWs r0) with
      | none => rw [hpa] at h; simp at h
      | some pr =>
        obtain ⟨xs, r2⟩ := pr
        rw [hpa] at h
        simp only [Option.map_some', Option.some.injEq, Prod.mk.injEq] at h
        rw [← h.2, ← takeWs_append_dropWs r0]
        exact consumedOk_cons '[' (consumedOk_extend _ (ihA _ _ _ hpa))
  · rename_i f2 r0 hfe
    have hf2 : f2 = f := by omega
    rw [hf2] at h
    split at h
    · rename_i x2 r2 heq2
      simp only [Option.some.injEq, Prod.mk.injEq] at h
      rw [← h.2]
      have hr0 := takeWs_append_dropWs r0
      rw [heq2] at hr0
      rw [← hr0]
      exact consumedOk_cons '{' (consumedOk_extend _ (consumedOk_concat [] '}' r2 (by decide)))
    · cases hpo : parseObjItems f (dropWs r0) with
      | none => rw [hpo] at h; simp at h
      | some pr =>
        obtain ⟨kvs, r2⟩ := pr
        rw [hpo] at h
        simp only [Option.map_some', Option.some.injEq, Prod.mk.injEq] at h
        rw [← h.2, ← takeWs_append_dropWs r0]
        exact consumedOk_cons '{' (consumedOk_extend _ (ihO _ _ _ hpo))
  · rename_i c r0 p1 p2 p3 p4 p5 p6 hfe
    split at h
    · split at h
      · rename_i hcond hvalid
        simp only [Option.some.injEq, Prod.mk.injEq] at h
        rw [← h.2]
        refine ⟨List.takeWhile numChar (c :: r0), ?_, ?_,
          (List.takeWhile_append_dropWhile numChar (c :: r0)).symm⟩
        · rw [List.takeWhile_cons, numChar_of_head hcond]
          simp
        · intro habs
          have hm := List.mem_of_mem_getLast? habs
          exact absurd (List.mem_takeWhile_imp hm) (by decide)
      · simp at h
    · simp at h
  · simp at h

lemma consumed_stepA (f : Nat)
    (ihV : ∀ l v r, parseVal f l = some (v, r) → ConsumedOk l r)
    (ihA : ∀ l xs r, parseArrItems f l = some (xs, r) → ConsumedOk l r) :
    ∀ l xs r, parseArrItems (f + 1) l = some (xs, r) → ConsumedOk l r := by
  intro l xs r h
  rw [parseArrItems.eq_def] at h
  split at h
  · simp at h
  · rename_i lsub nn lx f2 hfe
    have hf2 : f2 = f := by omega
    rw [hf2] at h
    split at h
    · simp at h
    · rename_i v0 r0 heq2
      obtain ⟨p1, hp1ne, hp1last, hp1⟩ := ihV _ _ _ heq2
      split at h
      · rename_i x3 r2 heq3
        cases hpa : parseArrItems f r2 with
        | none => rw [hpa] at h; simp at h
        | some pr =>
          obtain ⟨xs2, r3⟩ := pr
          rw [hpa] at h
          simp only [Option.map_some', Option.some.injEq, Prod.mk.injEq] at h
          rw [← h.2, ← takeWs_append_dropWs lsub, hp1, ← takeWs_append_dropWs r0, heq3]
          exact consumedOk_extend _ (consumedOk_extend _ (consumedOk_extend _
            (consumedOk_cons ',' (ihA _ _ _ hpa))))
      · rename_i x3 r2 heq3
        simp only [Option.some.injEq, Prod.mk.injEq] at h
        rw [← h.2, ← takeWs_append_dropWs lsub, hp1, ← takeWs_append_dropWs r0, heq3]
        exact consumedOk_extend _ (consumedOk_extend _ (consumedOk_extend _
          (consumedOk_concat [] ']' r2 (by decide))))
      · simp at h

lemma consumed_stepO (f : Nat)
    (ihV : ∀ l v r, parseVal f l = some (v, r) → ConsumedOk l r)
    (ihO : ∀ l kvs r, parseObjItems f l = some (kvs, r) → ConsumedOk l r) :
    ∀ l kvs r, parseObjItems (f + 1) l = some (kvs, r) → ConsumedOk l r := by
  intro l kvs r h
  rw [parseObjItems.eq_def] at h
  split at h
  · simp at h
  · rename_i lsub nn lx f2 hfe
    have hf2 : f2 = f := by omega
    rw [hf2] at h
    split at h
    · rename_i x0 r0 heq1
      split at h
      · simp at h
      · rename_i k0 r1 heq2
        obtain ⟨pk, hpk⟩ := parseStrAux_consumed heq2
        split at h
        · rename_i x1 r2 heq3
          split at h
          · simp at h
          · rename_i v0 r3 heq4
            obtain ⟨p3, hp3ne, hp3last, hp3⟩ := ihV _ _ _ heq4
            split at h
            · rename_i x2 r4 heq5
              cases hpo : parseObjItems f r4 with
              | none => rw [hpo] at h; simp at h
              | some pr2 =>
                obtain ⟨kvs2, r5⟩ := pr2
                rw [hpo] at h
                simp only [Option.map_some', Option.some.injEq, Prod.mk.injEq] at h
                rw [← h.2, ← takeWs_append_dropWs lsub, heq1, hpk,
                    ← takeWs_append_dropWs r1, heq3, ← takeWs_append_dropWs r2, hp3,
                    ← takeWs_append_dropWs r3, heq5]
                exact consumedOk_extend _ (consumedOk_cons '"' (consumedOk_extend _
                  (consumedOk_cons '"' (consumedOk_extend _ (consumedOk_cons ':'
                  (consumedOk_extend _ (consumedOk_extend _ (consumedOk_extend _
                  (consumedOk_cons ',' (ihO _ _ _ hpo))))))))))
            · rename_i x2 r4 heq5
              simp only [Option.some.injEq, Prod.mk.injEq] at h
              rw [← h.2, ← takeWs_append_dropWs lsub, heq1, hpk,
                  ← takeWs_append_dropWs r1, heq3, ← takeWs_append_dropWs r2, hp3,
                  ← takeWs_append_dropWs r3, heq5]
              exact consumedOk_extend _ (consumedOk_cons '"' (consumedOk_extend _
                (consumedOk_cons '"' (consumedOk_extend _ (consumedOk_cons ':'
                (consumedOk_extend _ (consumedOk_extend _ (consumedOk_extend _
                (consumedOk_concat [] '}' r4 (by decide))))))))))
            · simp at h
        · simp at h
    · simp at h

lemma parse_consumed : ∀ f : Nat,
    (∀ l v r, parseVal f l = some (v, r) → ConsumedOk l r) ∧
    (∀ l xs r, parseArrItems f l = some (xs, r) → ConsumedOk l r) ∧
    (∀ l kvs r, parseObjItems f l = some (kvs, r) → ConsumedOk l r) := by
  intro f
  induction f with
  | zero =>
    refine ⟨fun l v r h => ?_, fun l xs r h => ?_, fun l kvs r h => ?_⟩
    · rw [show parseVal 0 l = none from rfl] at h
      exact Option.noConfusion h
    · rw [show parseArrItems 0 l = none from rfl] at h
      exact Option.noConfusion h
    · rw [show parseObjItems 0 l = none from rfl] at h
      exact Option.noConfusion h
  | succ f ih =>
    exact ⟨consumed_stepV f ih.2.1 ih.2.2, consumed_stepA f ih.1 ih.2.1,
           consumed_stepO f ih.1 ih.2.2⟩

/- ----- valid JSON text neither opens with "```json" nor closes with "```" ----- -/

lemma parseVal_backtick (f : Nat) (y : List Char) : parseVal f (backtick :: y) = none := by
  cases f with
  | zero => rfl
  | succ f => rfl

lemma trimBoth_cons_head {c : Char} (hc : isWs c = false) (x : List Char) :
    ∃ w, trimBoth (c :: x) = c :: w := by
  unfold trimBoth
  rw [dropWs_cons_not hc, List.reverse_cons, dropWs_append_single x.reverse hc]
  exact ⟨(dropWs x.reverse).reverse, by simp⟩

lemma trimBoth_concat_last {c : Char} (hc : isWs c = false) (x : List Char) :
    ∃ w, trimBoth (x ++ [c]) = w ++ [c] := by
  unfold trimBoth
  rw [dropWs_append_single x hc, List.reverse_append]
  simp only [List.reverse_cons, List.reverse_nil, List.nil_append, List.singleton_append]
  rw [dropWs_cons_not hc]
  exact ⟨(dropWs x).reverse.reverse, by simp⟩

lemma jsonLoads_not_fenceJson {t : List Char} {v : Json} (h : jsonLoads t = some v) :
    startsWithL fenceJson t = false := by
  by_contra hb
  have hb2 : startsWithL fenceJson t = true := by
    cases hx : startsWithL fenceJson t with
    | true => rfl
    | false => exact absurd hx hb
  obtain ⟨rest, hrest⟩ := startsWithL_ex hb2
  have hfj : fenceJson = backtick :: "``json".toList := by decide
  rw [hfj] at hrest
  obtain ⟨w, hw⟩ := trimBoth_cons_head (show isWs backtick = false by decide)
    ("``json".toList ++ rest)
  rw [hrest] at h
  unfold jsonLoads at h
  rw [List.cons_append] at h
  rw [hw, parseVal_backtick] at h
  exact Option.noConfusion h

lemma jsonLoads_getLast_ne {t : List Char} {v : Json} (h : jsonLoads t = some v) :
    t.getLast? ≠ some backtick := by
  intro hlast
  have ht : t ≠ [] := by
    intro e
    rw [e] at hlast
    exact Option.noConfusion hlast
  obtain ⟨x, hx⟩ : ∃ x, t = x ++ [backtick] := by
    refine ⟨t.dropLast, ?_⟩
    conv_lhs => rw [← List.dropLast_append_getLast ht]
    have hg : t.getLast ht = backtick := by
      have := List.getLast?_eq_getLast t ht
      rw [hlast] at this
      exact (Option.some.injEq .. ▸ this).symm
    rw [hg]
  obtain ⟨w, hw⟩ := trimBoth_concat_last (show isWs backtick = false by decide) x
  rw [hx] at h
  unfold jsonLoads at h
  rw [hw] at h
  cases hp : parseVal (2 * (w ++ [backtick]).length + 2) (w ++ [backtick]) with
  | none => rw [hp] at h; exact Option.noConfusion h
  | some pr =>
    obtain ⟨v2, rest⟩ := pr
    rw [hp] at h
    cases rest with
    | nil =>
      obtain ⟨p, hpne, hplast, hpeq⟩ := (parse_consumed _).1 _ _ _ hp
      rw [List.append_nil] at hpeq
      rw [← hpeq] at hplast
      exact hplast (List.getLast?_concat _)
    | cons a rest2 => exact Option.noConfusion h

lemma jsonLoads_not_fenceTicks {t : List Char} {v : Json} (h : jsonLoads t = some v) :
    endsWithL fenceTicks t = false := by
  cases hx : endsWithL fenceTicks t with
  | false => rfl
  | true =>
    obtain ⟨x, hxe⟩ := endsWithL_ex hx
    have hft : fenceTicks = [backtick, backtick] ++ [backtick] := by decide
    rw [hft, ← List.append_assoc] at hxe
    have : t.getLast? = some backtick := by
      rw [hxe]
      exact List.getLast?_concat _
    exact absurd this (jsonLoads_getLast_ne h)

lemma stripFences_of_jsonLoads {t : List Char} {v : Json} (h : jsonLoads t = some v) :
    stripFences t = t := by
  unfold stripFences
  rw [jsonLoads_not_fenceJson h]
  simp only [Bool.false_eq_true, if_false]
  rw [jsonLoads_not_fenceTicks h]
  simp

/-- C7: fence-stripping is lossless on the payload — for every text `t`
that parses as JSON, a completion call whose extracted candidate text is
the fenced block `"```json\n" ++ t ++ "\n```"` parses to exactly the
same value as a call whose extracted text is `t` itself. -/
theorem c7_fence_strip_lossless (t : List Char) (v : Json) (h : jsonLoads t = some v) :
    extractPayload (wrapFence t) = some v ∧ extractPayload t = some v := by
  constructor
  · rw [extractPayload_wrap]
    exact h
  · unfold extractPayload
    rw [stripFences_of_jsonLoads h]
    exact h

/-- Witness for C7 at the concrete payload `{"a": 1}`. -/
theorem c7_witness :
    jsonLoads "\x7b\"a\": 1\x7d".toList = some (Json.obj [("a", Json.num "1")]) ∧
    extractPayload (wrapFence "\x7b\"a\": 1\x7d".toList) = some (Json.obj [("a", Json.num "1")]) ∧
    extractPayload "\x7b\"a\": 1\x7d".toList = some (Json.obj [("a", Json.num "1")]) :=
  ⟨by rfl, (c7_fence_strip_lossless _ _ (by rfl)).1, (c7_fence_strip_lossless _ _ (by rfl)).2⟩

/- ----- node-loop characterization (C5, C3) ----- -/

lemma seenOf_append_str (m : List (Json × Nat)) (s : String) (c : Nat) :
    seenOf (m ++ [(Json.str s, c)]) = seenOf m ++ [s] := by
  simp [seenOf]

lemma any_eq_contains (s : String) : ∀ m : List (Json × Nat),
    m.all (fun e => isStrJ e.1) = true →
    (m.any (fun e => pyEq (Json.str s) e.1)) = (seenOf m).contains s := by
  intro m
  induction m with
  | nil => intro _; rfl
  | cons e m ih =>
    intro h
    simp only [List.all_cons, Bool.and_eq_true] at h
    obtain ⟨he, hm⟩ := h
    obtain ⟨v, id⟩ := e
    cases v with
    | str s2 =>
      show (pyEq (Json.str s) (Json.str s2) || m.any (fun e => pyEq (Json.str s) e.1)) =
        (s2 :: seenOf m).contains s
      rw [ih hm]
      show ((s == s2) || (seenOf m).contains s) = (s2 :: seenOf m).contains s
      rw [List.contains_cons]
    | null => simp [isStrJ] at he
    | bool b => simp [isStrJ] at he
    | num x => simp [isStrJ] at he
    | arr x => simp [isStrJ] at he
    | obj x => simp [isStrJ] at he

lemma upperS_ENTITY : upperS "ENTITY" = "ENTITY" := by decide

lemma specAccepted_cons (n : Json) (rest : List Json) (seen : List String) :
    specAccepted (n :: rest) seen =
      (match specNodeName n with
       | some s => if !(s == "") && !(seen.contains s) then n :: specAccepted rest (seen ++ [s])
                   else specAccepted rest seen
       | none => specAccepted rest seen) := rfl

lemma specAccepted_cons_some {n : Json} {s : String} (rest : List Json) (seen : List String)
    (h : specNodeName n = some s) :
    specAccepted (n :: rest) seen =
      (if !(s == "") && !(seen.contains s) then n :: specAccepted rest (seen ++ [s])
       else specAccepted rest seen) := by
  rw [specAccepted_cons, h]

lemma label_upper_ok (n : Json) (h : strOrAbsent n "label" = true) :
    pyUpperE (pyGetD n "label" (.str "ENTITY")) = .ok (specLabel n) := by
  cases hl : pyGetOpt n "label" with
  | none => simp [pyGetD, hl, pyUpperE, specLabel, upperS_ENTITY]
  | some v =>
    cases v with
    | str s => simp [pyGetD, hl, pyUpperE, specLabel]
    | null => simp [strOrAbsent, hl] at h
    | bool b => simp [strOrAbsent, hl] at h
    | num x => simp [strOrAbsent, hl] at h
    | arr x => simp [strOrAbsent, hl] at h
    | obj x => simp [strOrAbsent, hl] at h

lemma fmtNodesGo_cons (kvs : List (String × Json)) (rest : List Json) (m : List (Json × Nat)) (c : Nat) :
    fmtNodesGo (Json.obj kvs :: rest) m c =
      (if !(pyTruthy (pyGetD (Json.obj kvs) "name" Json.null)) then fmtNodesGo rest m c
       else
        match pyMemE (pyGetD (Json.obj kvs) "name" Json.null) m with
        | .error e => .error e
        | .ok true => fmtNodesGo rest m c
        | .ok false =>
          match pyUpperE (pyGetD (Json.obj kvs) "label" (.str "ENTITY")) with
          | .error e => .error e
          | .ok lbl =>
            match fmtNodesGo rest (m ++ [(pyGetD (Json.obj kvs) "name" Json.null, c)]) (c + 1) with
            | .error e => .error e
            | .ok (os, m2, c2) =>
              .ok (Json.obj [("data", Json.obj
                (if lbl == "PERSON" then
                  [("id", Json.num (toString c)), ("label", Json.str lbl),
                   ("name", pyGetD (Json.obj kvs) "name" Json.null)] ++
                  [("personality", pyGetD (Json.obj kvs) "personality" (.str ""))]
                 else
                  [("id", Json.num (toString c)), ("label", Json.str lbl),
                   ("name", pyGetD (Json.obj kvs) "name" Json.null)]))] :: os, m2, c2)) := rfl

lemma fmtNodesGo_spec : ∀ (ns : List Json) (m : List (Json × Nat)) (c : Nat),
    ns.all nodeOkB = true → m.all (fun e => isStrJ e.1) = true →
    fmtNodesGo ns m c = .ok
      (specRenderNodes c (specAccepted ns (seenOf m)),
       m ++ specRenderMap c (specAccepted ns (seenOf m)),
       c + (specAccepted ns (seenOf m)).length) := by
  intro ns
  induction ns with
  | nil =>
    intro m c h1 h2
    simp [fmtNodesGo, specAccepted, specRenderNodes, specRenderMap]
  | cons n rest ih =>
    intro m c h1 h2
    simp only [List.all_cons, Bool.and_eq_true] at h1
    obtain ⟨hn, hrest⟩ := h1
    cases n with
    | obj kvs =>
      simp only [nodeOkB, Bool.and_eq_true] at hn
      obtain ⟨⟨hobj, hlab⟩, hnam⟩ := hn
      rw [fmtNodesGo_cons]
      cases hname : pyGetOpt (Json.obj kvs) "name" with
      | none =>
        have hnv : pyGetD (Json.obj kvs) "name" Json.null = Json.null := by
          simp [pyGetD, hname]
        rw [hnv]
        simp only [pyTruthy, Bool.not_false, if_true]
        rw [ih m c hrest h2]
        simp [specAccepted, specNodeName, hname]
      | some nv =>
        have hnv : pyGetD (Json.obj kvs) "name" Json.null = nv := by
          simp [pyGetD, hname]
        rw [hnv]
        cases nv with
        | null =>
          simp only [pyTruthy, Bool.not_false, if_true]
          rw [ih m c hrest h2]
          simp [specAccepted, specNodeName, hname]
        | str s =>
          have hsn : specNodeName (Json.obj kvs) = some s := by simp [specNodeName, hname]
          cases hs : (s == "") with
          | true =>
            rw [if_pos (show (!(pyTruthy (Json.str s))) = true by simp [pyTruthy, hs])]
            rw [ih m c hrest h2]
            rw [specAccepted_cons_some rest (seenOf m) hsn,
                show (!(s == "") && !((seenOf m).contains s)) = false by rw [hs]; rfl]
            simp
          | false =>
            rw [if_neg (show ¬((!(pyTruthy (Json.str s))) = true) by simp [pyTruthy, hs])]
            have hmem : pyMemE (Json.str s) m = .ok ((seenOf m).contains s) := by
              rw [show pyMemE (Json.str s) m =
                    .ok (m.any (fun e => pyEq (Json.str s) e.1)) from rfl,
                  any_eq_contains s m h2]
            rw [hmem]
            cases hc : (seenOf m).contains s with
            | true =>
              rw [ih m c hrest h2]
              rw [specAccepted_cons_some rest (seenOf m) hsn,
                  show (!(s == "") && !((seenOf m).contains s)) = false by rw [hc]; simp]
              simp
            | false =>
              rw [label_upper_ok _ hlab]
              have IH := ih (m ++ [(Json.str s, c)]) (c + 1) hrest
                (by rw [List.all_append, h2]; rfl)
              rw [seenOf_append_str] at IH
              rw [IH]
              have hacc : specAccepted (Json.obj kvs :: rest) (seenOf m) =
                  Json.obj kvs :: specAccepted rest (seenOf m ++ [s]) := by
                rw [specAccepted_cons_some rest (seenOf m) hsn,
                    show (!(s == "") && !((seenOf m).contains s)) = true by rw [hs, hc]; rfl]
                simp
              rw [hacc]
              simp only [specRenderNodes, specRenderMap, List.length_cons, Except.ok.injEq,
                Prod.mk.injEq, List.cons.injEq]
              refine ⟨⟨?_, ?_⟩, ?_, ?_⟩
              · simp [specNodeData, specLabel, pyGetD, hname]
              · trivial
              · simp [pyGetD, hname, List.append_assoc]
              · omega
        | bool b => simp [strNullOrAbsent, hname] at hnam
        | num x => simp [strNullOrAbsent, hname] at hnam
        | arr x => simp [strNullOrAbsent, hname] at hnam
        | obj x => simp [strNullOrAbsent, hname] at hnam
    | null => simp [nodeOkB, isObjJ] at hn
    | bool b => simp [nodeOkB, isObjJ] at hn
    | num x => simp [nodeOkB, isObjJ] at hn
    | str x => simp [nodeOkB, isObjJ] at hn
    | arr x => simp [nodeOkB, isObjJ] at hn

/-- C5: for every node list (arbitrary names, including duplicates and
empties), the projector assigns ids `c, c+1, …` starting at 1 exactly to
the accepted nodes — the first occurrence of each non-empty name, in
insertion order — and the skipped nodes (empty-named, nameless, or an
already-seen name under exact string equality) get no id and do not
appear in the output; the name-to-id dict binds each accepted name once. -/
theorem c5_node_dedup_ids (ns : List Json) (h : ns.all nodeOkB = true) :
    fmtNodesGo ns [] 1 = .ok
      (specRenderNodes 1 (specAccepted ns []),
       specRenderMap 1 (specAccepted ns []),
       1 + (specAccepted ns []).length) :=
  fmtNodesGo_spec ns [] 1 h rfl

/-- Witness for C5: duplicate name `A` and an empty name are skipped;
ids 1 and 2 go to the first `A` and to `B`. -/
theorem c5_witness :
    cDupNodes.all nodeOkB = true ∧
    fmtNodesGo cDupNodes [] 1 = .ok
      ([Json.obj [("data", Json.obj [("id", .num "1"), ("label", .str "X"), ("name", .str "A")])],
        Json.obj [("data", Json.obj [("id", .num "2"), ("label", .str "ENTITY"), ("name", .str "B")])]],
       [(.str "A", 1), (.str "B", 2)], 3) :=
  ⟨rfl, (c5_node_dedup_ids cDupNodes rfl).trans (by rfl)⟩

/- ----- edge-loop characterization (C6, C3) ----- -/

lemma upperS_RELATED_TO : upperS "RELATED_TO" = "RELATED_TO" := by decide

lemma edge_label_upper_ok (e : Json) (h : strOrAbsent e "label" = true) :
    pyUpperE (pyGetD e "label" (.str "RELATED_TO")) = .ok (specEdgeLabel e) := by
  cases hl : pyGetOpt e "label" with
  | none => simp [pyGetD, hl, pyUpperE, specEdgeLabel, upperS_RELATED_TO]
  | some v =>
    cases v with
    | str s => simp [pyGetD, hl, pyUpperE, specEdgeLabel]
    | null => simp [strOrAbsent, hl] at h
    | bool b => simp [strOrAbsent, hl] at h
    | num x => simp [strOrAbsent, hl] at h
    | arr x => simp [strOrAbsent, hl] at h
    | obj x => simp [strOrAbsent, hl] at h

lemma hashable_of_strNullOrAbsent {e : Json} {k : String} (h : strNullOrAbsent e k = true) :
    pyHashable (pyGetD e k .null) = true := by
  cases hg : pyGetOpt e k with
  | none => simp [pyGetD, hg, pyHashable]
  | some v =>
    cases v with
    | str s => simp [pyGetD, hg, pyHashable]
    | null => simp [pyGetD, hg, pyHashable]
    | bool b => simp [strNullOrAbsent, hg] at h
    | num x => simp [strNullOrAbsent, hg] at h
    | arr x => simp [strNullOrAbsent, hg] at h
    | obj x => simp [strNullOrAbsent, hg] at h

lemma pyMemE_ok_of_hashable {x : Json} (h : pyHashable x = true) (m : List (Json × Nat)) :
    pyMemE x m = .ok (m.any (fun e => pyEq x e.1)) := by
  simp [pyMemE, h]

lemma fmtEdgesGo_cons (m : List (Json × Nat)) (kvs : List (String × Json)) (rest : List Json)
    (labs : List String) (k : Nat) :
    fmtEdgesGo m (Json.obj kvs :: rest) labs k =
      (match pyUpperE (pyGetD (Json.obj kvs) "label" (.str "RELATED_TO")) with
       | .error err => .error err
       | .ok lbl =>
         match pyMemE (pyGetD (Json.obj kvs) "source" .null) m with
         | .error err => .error err
         | .ok false => fmtEdgesGo m rest labs k
         | .ok true =>
           match pyMemE (pyGetD (Json.obj kvs) "target" .null) m with
           | .error err => .error err
           | .ok false => fmtEdgesGo m rest labs k
           | .ok true =>
             match fmtEdgesGo m rest (labAdd labs lbl) (k + 1) with
             | .error err => .error err
             | .ok (os, labs2, k2) =>
               .ok (Json.obj [("data", Json.obj
                 [("id", Json.str ("e" ++ toString k)), ("label", Json.str lbl),
                  ("source", Json.num (toString (lookupId m (pyGetD (Json.obj kvs) "source" .null)))),
                  ("target", Json.num (toString (lookupId m (pyGetD (Json.obj kvs) "target" .null))))])] :: os,
                 labs2, k2)) := rfl

lemma fmtEdgesGo_spec : ∀ (es : List Json) (m : List (Json × Nat)) (labs : List String) (k : Nat),
    es.all edgeOkB = true →
    fmtEdgesGo m es labs k = .ok
      (specRenderEdges m k (es.filter (specEdgeKeep m)),
       specLabels labs (es.filter (specEdgeKeep m)),
       k + (es.filter (specEdgeKeep m)).length) := by
  intro es
  induction es with
  | nil =>
    intro m labs k h
    simp [fmtEdgesGo, specRenderEdges, specLabels]
  | cons e rest ih =>
    intro m labs k h
    simp only [List.all_cons, Bool.and_eq_true] at h
    obtain ⟨he, hrest⟩ := h
    cases e with
    | obj kvs =>
      simp only [edgeOkB, Bool.and_eq_true] at he
      obtain ⟨⟨⟨hobj, hlab⟩, hsrc⟩, htgt⟩ := he
      rw [fmtEdgesGo_cons, edge_label_upper_ok _ hlab,
          pyMemE_ok_of_hashable (hashable_of_strNullOrAbsent hsrc) m]
      cases hms : m.any (fun en => pyEq (pyGetD (Json.obj kvs) "source" .null) en.1) with
      | false =>
        rw [ih m labs k hrest]
        have hkeep : specEdgeKeep m (Json.obj kvs) = false := by
          simp [specEdgeKeep, hms]
        rw [List.filter_cons_of_neg (by simp [hkeep])]
      | true =>
        rw [pyMemE_ok_of_hashable (hashable_of_strNullOrAbsent htgt) m]
        cases hmt : m.any (fun en => pyEq (pyGetD (Json.obj kvs) "target" .null) en.1) with
        | false =>
          rw [ih m labs k hrest]
          have hkeep : specEdgeKeep m (Json.obj kvs) = false := by
            simp [specEdgeKeep, hms, hmt]
          rw [List.filter_cons_of_neg (by simp [hkeep])]
        | true =>
          have hkeep : specEdgeKeep m (Json.obj kvs) = true := by
            simp [specEdgeKeep, hms, hmt]
          rw [List.filter_cons_of_pos (by simp [hkeep])]
          simp only [ih m (labAdd labs (specEdgeLabel (Json.obj kvs))) (k + 1) hrest,
            specRenderEdges, specLabels, List.length_cons, Except.ok.injEq, Prod.mk.injEq,
            List.cons.injEq, specEdgeData, true_and, and_true]
          omega
    | null => simp [edgeOkB, isObjJ] at he
    | bool b => simp [edgeOkB, isObjJ] at he
    | num x => simp [edgeOkB, isObjJ] at he
    | str x => simp [edgeOkB, isObjJ] at he
    | arr x => simp [edgeOkB, isObjJ] at he

/-- C6: for every relationship list handed to the edge loop, the edges
whose source or target name is not bound in the name-to-id dict are
excluded and consume no id, so the accepted edges (a filter of the
input, in input order) carry gap-free sequential ids `e1, e2, …`, and
the output edge count never exceeds the input count. -/
theorem c6_edge_filter_gapfree_ids (es : List Json) (m : List (Json × Nat))
    (h : es.all edgeOkB = true) :
    fmtEdgesGo m es [] 1 = .ok
      (specRenderEdges m 1 (es.filter (specEdgeKeep m)),
       specLabels [] (es.filter (specEdgeKeep m)),
       1 + (es.filter (specEdgeKeep m)).length) ∧
    (es.filter (specEdgeKeep m)).length ≤ es.length :=
  ⟨fmtEdgesGo_spec es m [] 1 h, List.length_filter_le _ _⟩

/-- Witness for C6: the middle edge references unknown `Ghost`, is
dropped, and consumes no id — the edges around it get `e1` and `e2`. -/
theorem c6_witness :
    cMixEdges.all edgeOkB = true ∧
    fmtEdgesGo cMixMap cMixEdges [] 1 = .ok
      ([Json.obj [("data", Json.obj [("id", .str "e1"), ("label", .str "R1"),
                                     ("source", .num "1"), ("target", .num "2")])],
        Json.obj [("data", Json.obj [("id", .str "e2"), ("label", .str "RELATED_TO"),
                                     ("source", .num "2"), ("target", .num "1")])]],
       ["R1", "RELATED_TO"], 3) ∧
    (cMixEdges.filter (specEdgeKeep cMixMap)).length ≤ cMixEdges.length :=
  ⟨rfl, ((c6_edge_filter_gapfree_ids cMixEdges cMixMap rfl).1).trans (by rfl),
   (c6_edge_filter_gapfree_ids cMixEdges cMixMap rfl).2⟩

/- ----- projector totality under missing-field defaults (C3) ----- -/

lemma format_obj (kvs : List (String × Json)) :
    format_for_st_link_analysis (Json.obj kvs) =
      (match asIter (pyGetD (Json.obj kvs) "nodes" (.arr [])) with
       | .error e => .error e
       | .ok ns =>
         match fmtNodesGo ns [] 1 with
         | .error e => .error e
         | .ok (outN, m, _) =>
           match asIter (pyGetD (Json.obj kvs) "edges" (.arr [])) with
           | .error e => .error e
           | .ok es =>
             match fmtEdgesGo m es [] 1 with
             | .error e => .error e
             | .ok (outE, labs, _) =>
               .ok (Json.obj [("nodes", .arr outN), ("edges", .arr outE)], node_styles,
                    labs.map (fun L => ⟨L, "label", true, "#888888"⟩))) := rfl

lemma format_spec (j : Json) (ns es : List Json)
    (hobj : isObjJ j = true)
    (hn : asIter (pyGetD j "nodes" (.arr [])) = .ok ns)
    (he : asIter (pyGetD j "edges" (.arr [])) = .ok es)
    (h2 : ns.all nodeOkB = true) (h3 : es.all edgeOkB = true) :
    format_for_st_link_analysis j = .ok
      (Json.obj [("nodes", .arr (specRenderNodes 1 (specAccepted ns []))),
                 ("edges", .arr (specRenderEdges (specRenderMap 1 (specAccepted ns [])) 1
                    (es.filter (specEdgeKeep (specRenderMap 1 (specAccepted ns []))))))],
       node_styles,
       (specLabels [] (es.filter (specEdgeKeep (specRenderMap 1 (specAccepted ns []))))).map
         (fun L => ⟨L, "label", true, "#888888"⟩)) := by
  cases j with
  | obj kvs =>
    have e1 := fmtNodesGo_spec ns [] 1 h2 rfl
    simp only [List.nil_append, show seenOf ([] : List (Json × Nat)) = [] from rfl] at e1
    have e2 := fmtEdgesGo_spec es (specRenderMap 1 (specAccepted ns [])) [] 1 h3
    rw [format_obj, hn]
    simp only [e1, he, e2]
  | null => simp [isObjJ] at hobj
  | bool b => simp [isObjJ] at hobj
  | num x => simp [isObjJ] at hobj
  | str x => simp [isObjJ] at hobj
  | arr x => simp [isObjJ] at hobj

/-- C3 amended: the projector never raises on inputs whose *missing*
fields need defaulting — for every input dict whose `nodes`/`edges`
entries (when present) are lists of dicts with string labels (when
present) and string-or-`None` names/endpoints (when present), it returns
a result, substituting `ENTITY`/`RELATED_TO`/empty-string defaults for
the missing fields.  (As stated the claim is false: a present-but-`null`
or non-string `label` raises `AttributeError`, see the counterexample.) -/
theorem c3_defaults_total (j : Json) (h : jOkB j = true) :
    ∃ out, format_for_st_link_analysis j = .ok out := by
  cases j with
  | obj kvs =>
    simp only [jOkB, Bool.and_eq_true] at h
    obtain ⟨⟨hobj, hnodes⟩, hedges⟩ := h
    have hns : ∃ ns, asIter (pyGetD (Json.obj kvs) "nodes" (.arr [])) = .ok ns ∧
        ns.all nodeOkB = true := by
      cases hg : pyGetOpt (Json.obj kvs) "nodes" with
      | none => exact ⟨[], by simp [pyGetD, hg, asIter], rfl⟩
      | some v =>
        cases v with
        | arr ns => exact ⟨ns, by simp [pyGetD, hg, asIter], by simpa [hg] using hnodes⟩
        | null => simp [hg] at hnodes
        | bool b => simp [hg] at hnodes
        | num x => simp [hg] at hnodes
        | str x => simp [hg] at hnodes
        | obj x => simp [hg] at hnodes
    have hes : ∃ es, asIter (pyGetD (Json.obj kvs) "edges" (.arr [])) = .ok es ∧
        es.all edgeOkB = true := by
      cases hg : pyGetOpt (Json.obj kvs) "edges" with
      | none => exact ⟨[], by simp [pyGetD, hg, asIter], rfl⟩
      | some v =>
        cases v with
        | arr es => exact ⟨es, by simp [pyGetD, hg, asIter], by simpa [hg] using hedges⟩
        | null => simp [hg] at hedges
        | bool b => simp [hg] at hedges
        | num x => simp [hg] at hedges
        | str x => simp [hg] at hedges
        | obj x => simp [hg] at hedges
    obtain ⟨ns, hn, h2⟩ := hns
    obtain ⟨es, he, h3⟩ := hes
    exact ⟨_, format_spec (Json.obj kvs) ns es rfl hn he h2 h3⟩
  | null => simp [jOkB, isObjJ] at h
  | bool b => simp [jOkB, isObjJ] at h
  | num x => simp [jOkB, isObjJ] at h
  | str x => simp [jOkB, isObjJ] at h
  | arr x => simp [jOkB, isObjJ] at h

/-- Witness for the amended C3: nodes without labels and an edge with a
missing label and an unknown endpoint all degrade to defaults. -/
theorem c3_witness :
    jOkB c3GoodInput = true ∧ ∃ out, format_for_st_link_analysis c3GoodInput = .ok out :=
  ⟨rfl, c3_defaults_total c3GoodInput rfl⟩

/- ----- Step-2 loop characterization (C8) ----- -/

lemma step2Loop_cons (gemini : String → Except String Json) (doc : String)
    (kvs : List (String × Json)) (rest : List Json) :
    step2Loop gemini doc (Json.obj kvs :: rest) =
      (if pyEq (pyGetD (Json.obj kvs) "label" Json.null) (Json.str "PERSON") then
        match pyGetOpt (Json.obj kvs) "name" with
        | none => .error "KeyError: name"
        | some nameV =>
          match gemini (build_step2_prompt (pyStr nameV) doc) with
          | .error _ =>
            (match step2Loop gemini doc rest with
             | .error e => .error e
             | .ok (fs, cs) => .ok (objInsert "personality" (.str "") (Json.obj kvs) :: fs,
                 build_step2_prompt (pyStr nameV) doc :: cs))
          | .ok pj =>
            match pj with
            | .obj _ =>
              (match step2Loop gemini doc rest with
               | .error e => .error e
               | .ok (fs, cs) =>
                 .ok (objInsert "personality" (pyGetD pj "personality" (.str "")) (Json.obj kvs) :: fs,
                   build_step2_prompt (pyStr nameV) doc :: cs))
            | _ => .error "AttributeError: get"
       else
        match step2Loop gemini doc rest with
        | .error e => .error e
        | .ok (fs, cs) => .ok (Json.obj kvs :: fs, cs)) := rfl

lemma step2Loop_spec (gemini : String → Except String Json) (doc : String) :
    ∀ ns : List Json, ns.all (nodeC8OkB gemini doc) = true →
    step2Loop gemini doc ns = .ok (ns.map (step2Transform gemini doc), step2PromptsOf doc ns) := by
  intro ns
  induction ns with
  | nil => intro h; rfl
  | cons n rest ih =>
    intro h
    simp only [List.all_cons, Bool.and_eq_true] at h
    obtain ⟨hn, hrest⟩ := h
    simp only [nodeC8OkB, Bool.and_eq_true] at hn
    obtain ⟨hobj, hper0⟩ := hn
    cases n with
    | obj kvs =>
      rw [step2Loop_cons]
      cases hper : pyEq (pyGetD (Json.obj kvs) "label" Json.null) (Json.str "PERSON") with
      | false =>
        rw [if_neg (by simp [hper])]
        simp only [ih hrest]
        have ht : isPersonNode (Json.obj kvs) = false := hper
        simp [step2Transform, ht, step2PromptsOf]
      | true =>
        have hpers : isPersonNode (Json.obj kvs) = true := hper
        rw [if_pos (by simp [hper])]
        rw [hpers] at hper0
        simp only [Bool.not_true, Bool.false_or, Bool.and_eq_true] at hper0
        obtain ⟨hname0, hresp⟩ := hper0
        cases hname : pyGetOpt (Json.obj kvs) "name" with
        | none => rw [hname] at hname0; simp at hname0
        | some nv =>
          have hpp : build_step2_prompt (pyStr nv) doc = personPrompt doc (Json.obj kvs) := by
            simp [personPrompt, pyGetD, hname]
          simp only [hpp]
          cases hg : gemini (personPrompt doc (Json.obj kvs)) with
          | error e =>
            simp only [ih hrest]
            simp [step2Transform, hpers, hg, step2PromptsOf]
          | ok pj =>
            rw [hg] at hresp
            cases pj with
            | obj pkvs =>
              simp only [ih hrest]
              simp [step2Transform, hpers, hg, step2PromptsOf]
            | null => simp [respOkB] at hresp
            | bool b => simp [respOkB] at hresp
            | num x => simp [respOkB] at hresp
            | str x => simp [respOkB] at hresp
            | arr x => simp [respOkB] at hresp
    | null => simp [isObjJ] at hobj
    | bool b => simp [isObjJ] at hobj
    | num x => simp [isObjJ] at hobj
    | str x => simp [isObjJ] at hobj
    | arr x => simp [isObjJ] at hobj

/-- C8: for every stage-1 entity list and every pattern of per-person
stage-2 outcomes, the Step-2 loop completes (a single person's failed
call never aborts the run): each person's `personality` is set from its
own call — the empty string on failure — and all entities, of every
category, are accumulated in their original stage-1 order; exactly the
persons' prompts are issued, in order. -/
theorem c8_step2_absorbs_failures (gemini : String → Except String Json) (doc : String)
    (ns : List Json) (h : ns.all (nodeC8OkB gemini doc) = true) :
    step2Loop gemini doc ns = .ok (ns.map (step2Transform gemini doc), step2PromptsOf doc ns) :=
  step2Loop_spec gemini doc ns h

/-- Witness for C8: Bob (a person) whose personality call fails gets an
empty-string personality; the non-person Alice passes through; both are
kept in order. -/
theorem c8_witness :
    ([cBob, cAlice].all (nodeC8OkB oracleFail "doc")) = true ∧
    step2Loop oracleFail "doc" [cBob, cAlice] = .ok
      ([.obj [("name", .str "Bob"), ("label", .str "PERSON"), ("personality", .str "")], cAlice],
       [build_step2_prompt "Bob" "doc"]) :=
  ⟨rfl, (c8_step2_absorbs_failures oracleFail "doc" [cBob, cAlice] rfl).trans (by rfl)⟩

/- ----- pipeline runs with a truthy stage-1 entity list (C2, C4) ----- -/

lemma all_split_left {α : Type} (l : List α) (f g : α → Bool)
    (h : l.all (fun x => f x && g x) = true) : l.all f = true := by
  rw [List.all_eq_true] at h ⊢
  intro x hx
  exact ((Bool.and_eq_true _ _).mp (h x hx)).1

lemma namesOf_spec : ∀ fs : List Json,
    fs.all (fun n => nodeOkB n && (pyGetOpt n "name").isSome) = true →
    namesOf fs = .ok (fs.map (fun n => pyGetD n "name" Json.null)) := by
  intro fs
  induction fs with
  | nil => intro h; rfl
  | cons n rest ih =>
    intro h
    simp only [List.all_cons, Bool.and_eq_true] at h
    obtain ⟨⟨hn, hname⟩, hrest⟩ := h
    cases n with
    | obj kvs =>
      cases hg : pyGetOpt (Json.obj kvs) "name" with
      | none => rw [hg] at hname; simp at hname
      | some nv =>
        have hsub : subscriptE (Json.obj kvs) "name" = .ok nv := by
          simp [subscriptE, hg]
        simp only [namesOf, hsub, ih hrest]
        simp [pyGetD, hg]
    | null => simp [nodeOkB, isObjJ] at hn
    | bool b => simp [nodeOkB, isObjJ] at hn
    | num x => simp [nodeOkB, isObjJ] at hn
    | str x => simp [nodeOkB, isObjJ] at hn
    | arr x => simp [nodeOkB, isObjJ] at hn

lemma finishRun_ok (finals es : List Json)
    (hfin : finals.all nodeOkB = true) (hese : es.all edgeOkB = true) :
    ∃ elements, ∀ (msgs : List (Sev × String)) (calls : List String) (scores : Option (Json × Json)),
      finishRun msgs calls (Json.obj [("nodes", .arr finals), ("edges", .arr es)]) scores =
      .ok ⟨msgs ++ [(.success, "Graph generation complete! " ++ toString (jLenKey elements "nodes")
            ++ " nodes, " ++ toString (jLenKey elements "edges") ++ " edges.")],
           false, calls, some (Json.obj [("nodes", .arr finals), ("edges", .arr es)]), scores,
           some elements⟩ := by
  have hfmt := format_spec (Json.obj [("nodes", .arr finals), ("edges", .arr es)]) finals es
    rfl rfl rfl hfin hese
  refine ⟨Json.obj
      [("nodes", Json.arr (specRenderNodes 1 (specAccepted finals []))),
       ("edges", Json.arr (specRenderEdges (specRenderMap 1 (specAccepted finals [])) 1
          (List.filter (specEdgeKeep (specRenderMap 1 (specAccepted finals []))) es)))],
    fun msgs calls scores => ?_⟩
  simp only [finishRun, hfmt]

lemma runPipeline_body (gemini : String → Except String Json) (doc : String) (ns : List Json)
    (h1 : gemini (build_step1_prompt doc) = .ok (.arr ns))
    (h2 : pyTruthy (.arr ns) = true)
    (h3 : ns.all (nodeC8OkB gemini doc) = true)
    (h4 : (ns.map (step2Transform gemini doc)).all
      (fun n => nodeOkB n && (pyGetOpt n "name").isSome) = true) :
    runPipeline gemini true doc =
      (let finals := ns.map (step2Transform gemini doc)
       let p3 := build_step3_prompt (finals.map (fun n => pyGetD n "name" Json.null)) doc
       let edgesJ := match gemini p3 with | .error _ => Json.arr [] | .ok ej => ej
       let msgs3 : List (Sev × String) :=
         match gemini p3 with | .error e => [(.error, "Error in Step 3: " ++ e)] | .ok _ => []
       let llm := Json.obj [("nodes", .arr finals), ("edges", edgesJ)]
       let p4 := build_step4_prompt doc (pyDumps2 llm)
       let calls := [build_step1_prompt doc] ++ step2PromptsOf doc ns ++ [p3, p4]
       match gemini p4 with
       | .error e =>
         finishRun (msgs3 ++ [(.warning, "Warning: The evaluation step failed. " ++ e)]) calls llm none
       | .ok ev =>
         match ev with
         | .obj _ =>
           finishRun msgs3 calls llm
             (some (pyGetD ev "correctness_score" (.num "0"), pyGetD ev "completeness_score" (.num "0")))
         | _ => .error "AttributeError: get") := by
  simp only [runPipeline, Bool.not_true, Bool.false_eq_true, if_false, h1, h2,
    show asIter (Json.arr ns) = .ok ns from rfl,
    step2Loop_spec gemini doc ns h3, namesOf_spec _ h4]

lemma runPipeline_body2 (gemini : String → Except String Json) (doc : String) (ns : List Json)
    (e3 g4 : Except String Json)
    (h1 : gemini (build_step1_prompt doc) = .ok (.arr ns))
    (h2 : pyTruthy (.arr ns) = true)
    (h3 : ns.all (nodeC8OkB gemini doc) = true)
    (h4 : (ns.map (step2Transform gemini doc)).all
      (fun n => nodeOkB n && (pyGetOpt n "name").isSome) = true)
    (h5 : gemini (build_step3_prompt
      ((ns.map (step2Transform gemini doc)).map (fun n => pyGetD n "name" Json.null)) doc) = e3)
    (hg4 : gemini (build_step4_prompt doc (pyDumps2
      (Json.obj [("nodes", .arr (ns.map (step2Transform gemini doc))),
                 ("edges", step3Edges e3)]))) = g4) :
    runPipeline gemini true doc =
      step4Finish (step3Msgs e3)
        ([build_step1_prompt doc] ++ step2PromptsOf doc ns ++
          [build_step3_prompt ((ns.map (step2Transform gemini doc)).map
             (fun n => pyGetD n "name" Json.null)) doc,
           build_step4_prompt doc (pyDumps2
            (Json.obj [("nodes", .arr (ns.map (step2Transform gemini doc))),
                       ("edges", step3Edges e3)]))])
        (Json.obj [("nodes", .arr (ns.map (step2Transform gemini doc))),
                   ("edges", step3Edges e3)])
        g4 := by
  subst h5
  subst hg4
  rw [runPipeline_body gemini doc ns h1 h2 h3 h4]
  rfl


/-- C2 (amended): when stage 3 fails, the run is not aborted — the final
relationship list becomes empty while the stage-1/2 entities are still
reported (they are in the assembled graph and the projected rendering),
the pipeline proceeds through stage 4 (its prompt is among the issued
calls) — but the stage-3 failure is surfaced to the user as a visible
*error* message (`st.error`), not as a warning. -/
theorem c2_stage3_lenient_error_severity
    (gemini : String → Except String Json) (doc e : String) (ns : List Json)
    (h1 : gemini (build_step1_prompt doc) = .ok (.arr ns))
    (h2 : pyTruthy (.arr ns) = true)
    (h3 : ns.all (nodeC8OkB gemini doc) = true)
    (h4 : (ns.map (step2Transform gemini doc)).all
      (fun n => nodeOkB n && (pyGetOpt n "name").isSome) = true)
    (h5 : gemini (build_step3_prompt
      ((ns.map (step2Transform gemini doc)).map (fun n => pyGetD n "name" Json.null)) doc) = .error e)
    (h6 : respOkB (gemini (build_step4_prompt doc (pyDumps2
      (Json.obj [("nodes", .arr (ns.map (step2Transform gemini doc))),
                 ("edges", Json.arr [])])))) = true) :
    ∃ r, runPipeline gemini true doc = .ok r ∧
      r.graph = some (Json.obj [("nodes", .arr (ns.map (step2Transform gemini doc))),
                                ("edges", Json.arr [])]) ∧
      (Sev.error, "Error in Step 3: " ++ e) ∈ r.messages ∧
      r.stopped = false ∧
      r.rendered.isSome = true ∧
      r.calls = [build_step1_prompt doc] ++ step2PromptsOf doc ns ++
        [build_step3_prompt
          ((ns.map (step2Transform gemini doc)).map (fun n => pyGetD n "name" Json.null)) doc,
         build_step4_prompt doc (pyDumps2
          (Json.obj [("nodes", .arr (ns.map (step2Transform gemini doc))),
                     ("edges", Json.arr [])]))] := by
  rw [runPipeline_body gemini doc ns h1 h2 h3 h4]
  simp only [h5]
  cases hg4 : gemini (build_step4_prompt doc (pyDumps2
      (Json.obj [("nodes", .arr (ns.map (step2Transform gemini doc))),
                 ("edges", Json.arr [])]))) with
  | error e4 =>
    obtain ⟨elements, helts⟩ := finishRun_ok (ns.map (step2Transform gemini doc)) []
      (all_split_left _ _ _ h4) rfl
    simp only [helts]
    refine ⟨_, rfl, rfl, ?_, rfl, rfl, rfl⟩
    simp
  | ok ev =>
    rw [hg4] at h6
    cases ev with
    | obj ekvs =>
      obtain ⟨elements, helts⟩ := finishRun_ok (ns.map (step2Transform gemini doc)) []
        (all_split_left _ _ _ h4) rfl
      simp only [helts]
      refine ⟨_, rfl, rfl, ?_, rfl, rfl, rfl⟩
      simp
    | null => simp [respOkB] at h6
    | bool b => simp [respOkB] at h6
    | num x => simp [respOkB] at h6
    | str x => simp [respOkB] at h6
    | arr x => simp [respOkB] at h6

lemma oracleC2_step4 (s : String) : oracleC2 (build_step4_prompt cDoc s) =
    Except.ok (Json.obj [("correctness_score", Json.num "5"), ("completeness_score", Json.num "5")]) := rfl

lemma oracleC4_step4 (s : String) : oracleC4 (build_step4_prompt cDoc s) =
    Except.ok (Json.obj [("correctness_score", Json.num "5"), ("completeness_score", Json.num "5")]) := rfl

set_option maxRecDepth 8000

/-- Counterexample to C2 as stated: in a run where stage 3 fails, the
failure is absorbed (run proceeds, entities reported, empty edge list,
not stopped) but there is **no warning-severity message at all** — the
stage-3 failure is shown via `st.error`, so "reported to the user as a
visible warning" is false. -/
theorem c2_counterexample :
    (runPipeline oracleC2 true cDoc).toOption.map
      (fun r => (r.messages, r.messages.all (fun mm => !(mm.1 == Sev.warning)), r.graph, r.stopped)) =
    some ([(Sev.error, "Error in Step 3: boom"),
           (Sev.success, "Graph generation complete! 1 nodes, 0 edges.")],
          true,
          some (Json.obj [("nodes", .arr [cAlice]), ("edges", .arr [])]),
          false) := by
  rw [runPipeline_body2 oracleC2 cDoc [cAlice] (Except.error "boom")
    (Except.ok (Json.obj [("correctness_score", Json.num "5"), ("completeness_score", Json.num "5")]))
    rfl rfl rfl rfl rfl (oracleC2_step4 _)]
  rfl

/-- Witness for the amended C2, at the concrete run `oracleC2`. -/
theorem c2_witness :
    ∃ r, runPipeline oracleC2 true cDoc = .ok r ∧
      r.graph = some (Json.obj [("nodes", .arr ([cAlice].map (step2Transform oracleC2 cDoc))),
                                ("edges", Json.arr [])]) ∧
      (Sev.error, "Error in Step 3: boom") ∈ r.messages ∧
      r.stopped = false ∧
      r.rendered.isSome = true ∧
      r.calls = [build_step1_prompt cDoc] ++ step2PromptsOf cDoc [cAlice] ++
        [build_step3_prompt
          (([cAlice].map (step2Transform oracleC2 cDoc)).map (fun n => pyGetD n "name" Json.null)) cDoc,
         build_step4_prompt cDoc (pyDumps2
          (Json.obj [("nodes", .arr ([cAlice].map (step2Transform oracleC2 cDoc))),
                     ("edges", Json.arr [])]))] :=
  c2_stage3_lenient_error_severity oracleC2 cDoc "boom" [cAlice] rfl rfl rfl rfl rfl
    (by rw [oracleC2_step4]; rfl)

/-- Counterexample to C4 as stated: the graph dict passed to the
stage-4 self-evaluation call contains the stage-3 edge verbatim — its
label `met` is not upper-cased (`MET ≠ met`) and its target `Ghost` is
not an accepted entity name (the only entity is `Alice`), yet it was not
dropped. -/
theorem c4_counterexample :
    (runPipeline oracleC4 true cDoc).toOption.map (fun r => r.graph) =
      some (some (Json.obj [("nodes", .arr [cAlice]), ("edges", .arr [cBadEdge])])) ∧
    pyGetD cBadEdge "label" Json.null = Json.str "met" ∧
    Json.str (upperS "met") ≠ Json.str "met" ∧
    pyGetD cBadEdge "target" Json.null = Json.str "Ghost" ∧
    [cAlice].map (fun n => pyGetD n "name" Json.null) = [Json.str "Alice"] ∧
    Json.str "Ghost" ≠ Json.str "Alice" := by
  refine ⟨?_, rfl, ?_, rfl, rfl, ?_⟩
  · rw [runPipeline_body2 oracleC4 cDoc [cAlice] (Except.ok (Json.arr [cBadEdge]))
      (Except.ok (Json.obj [("correctness_score", Json.num "5"), ("completeness_score", Json.num "5")]))
      rfl rfl rfl rfl rfl (oracleC4_step4 _)]
    rfl
  · intro h
    injection h with h2
    exact absurd h2 (by decide)
  · intro h
    injection h with h2
    exact absurd h2 (by decide)

/-- C4 (amended): the graph assembled for the stage-4 self-evaluation
call carries the stage-3 relationship list exactly as returned — no
endpoint validation and no label normalization are applied to it; those
happen only later, in the projection to the renderer. -/
theorem c4_raw_relationships_to_stage4
    (gemini : String → Except String Json) (doc : String) (ns es : List Json)
    (h1 : gemini (build_step1_prompt doc) = .ok (.arr ns))
    (h2 : pyTruthy (.arr ns) = true)
    (h3 : ns.all (nodeC8OkB gemini doc) = true)
    (h4 : (ns.map (step2Transform gemini doc)).all
      (fun n => nodeOkB n && (pyGetOpt n "name").isSome) = true)
    (h5 : gemini (build_step3_prompt
      ((ns.map (step2Transform gemini doc)).map (fun n => pyGetD n "name" Json.null)) doc) =
      .ok (Json.arr es))
    (hese : es.all edgeOkB = true)
    (h6 : respOkB (gemini (build_step4_prompt doc (pyDumps2
      (Json.obj [("nodes", .arr (ns.map (step2Transform gemini doc))),
                 ("edges", Json.arr es)])))) = true) :
    ∃ r, runPipeline gemini true doc = .ok r ∧
      r.graph = some (Json.obj [("nodes", .arr (ns.map (step2Transform gemini doc))),
                                ("edges", Json.arr es)]) ∧
      r.calls = [build_step1_prompt doc] ++ step2PromptsOf doc ns ++
        [build_step3_prompt
          ((ns.map (step2Transform gemini doc)).map (fun n => pyGetD n "name" Json.null)) doc,
         build_step4_prompt doc (pyDumps2
          (Json.obj [("nodes", .arr (ns.map (step2Transform gemini doc))),
                     ("edges", Json.arr es)]))] := by
  rw [runPipeline_body gemini doc ns h1 h2 h3 h4]
  simp only [h5]
  cases hg4 : gemini (build_step4_prompt doc (pyDumps2
      (Json.obj [("nodes", .arr (ns.map (step2Transform gemini doc))),
                 ("edges", Json.arr es)]))) with
  | error e4 =>
    obtain ⟨elements, helts⟩ := finishRun_ok (ns.map (step2Transform gemini doc)) es
      (all_split_left _ _ _ h4) hese
    simp only [helts]
    exact ⟨_, rfl, rfl, rfl⟩
  | ok ev =>
    rw [hg4] at h6
    cases ev with
    | obj ekvs =>
      obtain ⟨elements, helts⟩ := finishRun_ok (ns.map (step2Transform gemini doc)) es
        (all_split_left _ _ _ h4) hese
      simp only [helts]
      exact ⟨_, rfl, rfl, rfl⟩
    | null => simp [respOkB] at h6
    | bool b => simp [respOkB] at h6
    | num x => simp [respOkB] at h6
    | str x => simp [respOkB] at h6
    | arr x => simp [respOkB] at h6

/-- Witness for the amended C4, at the concrete run `oracleC4`: the raw
lower-case `met` edge to unknown `Ghost` reaches the stage-4 graph. -/
theorem c4_witness :
    ∃ r, runPipeline oracleC4 true cDoc = .ok r ∧
      r.graph = some (Json.obj [("nodes", .arr ([cAlice].map (step2Transform oracleC4 cDoc))),
                                ("edges", Json.arr [cBadEdge])]) ∧
      r.calls = [build_step1_prompt cDoc] ++ step2PromptsOf cDoc [cAlice] ++
        [build_step3_prompt
          (([cAlice].map (step2Transform oracleC4 cDoc)).map (fun n => pyGetD n "name" Json.null)) cDoc,
         build_step4_prompt cDoc (pyDumps2
          (Json.obj [("nodes", .arr ([cAlice].map (step2Transform oracleC4 cDoc))),
                     ("edges", Json.arr [cBadEdge])]))] :=
  c4_raw_relationships_to_stage4 oracleC4 cDoc [cAlice] [cBadEdge] rfl rfl rfl rfl rfl rfl
    (by rw [oracleC4_step4]; rfl)
